import Mathlib

set_option maxHeartbeats 1000000
set_option linter.unusedVariables false

/-!
Verification development for the tech-debt VS Code extension core logic:
the string sanitization utilities (`StringUtils`, src/utils/string-utils.ts),
the Git remote URL parser (`GitHubAPI.parseGitHubUrl`), the session/client
lifecycle (`GitHubAPI.initialize` / `_initialize`), and the request wrappers
(`createIssue`, `editIssue`, `addCommentToIssue`, ...) of
src/github-api.ts.

Strings are modelled as `List Char` (JavaScript strings are sequences of
code units; all the characters relevant here are plain code points).
Asynchronous methods are modelled as pure functions over an explicit
`GitHubState` record mirroring the class fields, with the environment
(authentication outcome, repository detection outcome, remote API
responses) passed in as parameters.  Network waits are modelled by
returning the accumulated milliseconds of `setTimeout` delays.
-/

/-- Character class of the JavaScript `\s` regex class / `String.prototype.trim`:
tab, LF, VT, FF, CR, space, NBSP, Ogham space mark, the U+2000..U+200A range,
LS, PS, NNBSP, MMSP, ideographic space and the BOM. -/
def isJsSpace (c : Char) : Bool :=
  let n := c.toNat
  n == 9 || n == 10 || n == 11 || n == 12 || n == 13 || n == 32 ||
  n == 160 || n == 5760 || (8192 ≤ n && n ≤ 8202) ||
  n == 8232 || n == 8233 || n == 8239 || n == 8287 || n == 12288 || n == 65279

/-- Character class of the first `sanitizeUrlComponent` replacement regex
`[\/\\.]+` (codes 46 `.`, 47 `/`, 92 `\`): replacing every run of these by the
empty string removes exactly every occurrence of these characters. -/
def isDotSlashChar (c : Char) : Bool :=
  c.toNat == 46 || c.toNat == 47 || c.toNat == 92

/-- Character class of the second `sanitizeUrlComponent` replacement regex:
the 25 characters of the set shown in the source
(codes for the less-than/greater-than signs, double quote, single quote,
backtick, braces, square brackets, parentheses, percent, dollar, hash, at,
ampersand, asterisk, exclamation mark, semicolon, pipe, equals, plus, comma,
tilde, caret). -/
def isDangerChar (c : Char) : Bool :=
  let n := c.toNat
  n == 60 || n == 62 || n == 34 || n == 39 || n == 96 || n == 123 || n == 125 ||
  n == 91 || n == 93 || n == 40 || n == 41 || n == 37 || n == 36 || n == 35 ||
  n == 64 || n == 38 || n == 42 || n == 33 || n == 59 || n == 124 || n == 61 ||
  n == 43 || n == 44 || n == 126 || n == 94

/-- JavaScript `String.prototype.trim`: drop leading and trailing `\s` characters. -/
def jsTrim (l : List Char) : List Char :=
  ((l.dropWhile isJsSpace).reverse.dropWhile isJsSpace).reverse

/-- Helper for the `\s+` → single space replacement: the flag records whether the
previous character processed was whitespace (in which case further whitespace of
the same run is dropped; the first whitespace of a run is emitted as a space). -/
def collapseAux : Bool → List Char → List Char
  | _, [] => []
  | prevSpace, c :: rest =>
    if isJsSpace c then
      if prevSpace then collapseAux true rest else ' ' :: collapseAux true rest
    else c :: collapseAux false rest

/-- JavaScript `.replace(/\s+/g, ' ')`: every maximal whitespace run becomes one space. -/
def collapseWs (l : List Char) : List Char := collapseAux false l

/-- Model of `StringUtils.sanitizeUrlComponent`: trim, remove every `.` `/` `\`
(the `[\/\\.]+` run-replacement removes each occurrence), remove the unsafe
punctuation characters, then collapse whitespace runs to single spaces.
Null/undefined inputs map to the empty string, as does the empty list here. -/
def sanitizeUrlComponent (value : List Char) : List Char :=
  collapseWs (((jsTrim value).filter
      (fun c => !(isDotSlashChar c))).filter
      (fun c => !(isDangerChar c)))

/-- Model of `StringUtils.truncate`: falsy (empty) text gives the empty string;
text within the limit is returned unchanged; longer text is cut to
`maxLength - suffix.length` characters with the suffix appended. -/
def truncate (text : List Char) (maxLength : Nat) (suffix : List Char) : List Char :=
  if text.isEmpty then []
  else if text.length ≤ maxLength then text
  else text.take (maxLength - suffix.length) ++ suffix

/-- Model of `StringUtils.validateLength`. -/
def validateLength (text : List Char) (minLength maxLength : Nat) : Bool :=
  if text.isEmpty then minLength == 0
  else decide (minLength ≤ text.length) && decide (text.length ≤ maxLength)

/-- Character class of the JavaScript `\w` regex class (ASCII letters, digits,
underscore). -/
def isWordCharJs (c : Char) : Bool :=
  let n := c.toNat
  (48 ≤ n && n ≤ 57) || (65 ≤ n && n ≤ 90) || (97 ≤ n && n ≤ 122) || n == 95

/-- Model of `StringUtils.sanitizeSearchQuery`: replace every character outside
`[\w\s\-_]` by a space, collapse whitespace runs, then trim. -/
def sanitizeSearchQuery (query : List Char) : List Char :=
  jsTrim (collapseWs (query.map (fun c =>
    if isWordCharJs c || isJsSpace c || c.toNat == 45 || c.toNat == 95 then c else ' ')))

/-- Model of JavaScript `String.prototype.includes`: substring test, checking
for a prefix at every start position. -/
def includesStr (needle : List Char) : List Char → Bool
  | [] => needle.isEmpty
  | l@(_ :: rest) => needle.isPrefixOf l || includesStr needle rest

/-- The literal "github" checked by `remoteUrl.includes('github')`. -/
def litGithub : List Char := ("github").toList

/-- The literal "http" checked by `remoteUrl.includes('http')`. -/
def litHttp : List Char := ("http").toList

/-- The literal ".git" of the optional `(?:\.git)?` suffix groups. -/
def litDotGit : List Char := (".git").toList

/-- Split a string at every `/` (used to locate the slash-delimited groups of the
HTTPS regex, whose owner and repo groups exclude `/`). -/
def splitSlash : List Char → List (List Char)
  | [] => [[]]
  | c :: rest =>
    if c == '/' then [] :: splitSlash rest
    else
      match splitSlash rest with
      | [] => [[c]]
      | p :: ps => (c :: p) :: ps

/-- Test that the last four characters of `t` are `.git` up to ASCII case
(the HTTPS regex carries the `i` flag and `.git` is its only cased literal). -/
def endsWithDotGitCI (t : List Char) : Bool :=
  match t.drop (t.length - 4) with
  | [a, b, c, d] =>
    (a == '.') && (b == 'g' || b == 'G') && (c == 'i' || c == 'I') &&
    (d == 't' || d == 'T')
  | _ => false

/-- Lazy-group semantics of `([^\/\n]+?)(?:\.git)?$` applied to the final
slash-free segment `t`: the lazy repo group takes the shortest nonempty prefix,
so a (case-insensitive, `i` flag) trailing `.git` is stripped whenever the part
before it is nonempty; a segment that is exactly `.git` stays whole. -/
def stripGitCI (t : List Char) : List Char :=
  if 4 < t.length && endsWithDotGitCI t then t.take (t.length - 4) else t

/-- Model of matching `httpsRegex =
`(?:https?:\/\/)?(?:[^@\/\n]+@)?(?:www\.)?([^:\/\n]+)\/([^\/\n]+)\/([^\/\n]+?)(?:\.git)?$`i`
against the whole URL and returning (group 2, group 3) = (owner, repo).
Because group 2 and group 3 exclude `/` and the match is anchored at the end,
any successful match has group 3 spanning from after the last `/` of the string
(minus an optionally stripped `.git`), group 2 the segment between the last two
`/`, and group 1 a nonempty run of characters other than `:` `/` `\n` ending
right before the second-to-last `/`; the leading optional groups and the
unanchored start absorb anything before that.  Hence: a match exists iff the
string has at least two `/`, the character immediately before the
second-to-last `/` exists and is not `:` or `\n`, and the last two segments are
nonempty and `\n`-free. -/
def matchHttps (url : List Char) : Option (List Char × List Char) :=
  match (splitSlash url).reverse with
  | t :: o :: pre :: _ =>
    match pre.getLast? with
    | some c =>
      if c == ':' || c == '\n' || o.isEmpty || o.any (fun d => d == '\n') ||
         t.isEmpty || t.any (fun d => d == '\n') then none
      else some (o, stripGitCI t)
    | none => none
  | _ => none

/-- Lazy-group semantics of `([^\/\.]+?)(?:\.git)?$` (SSH regexes, no `i` flag)
applied to the final segment `t`: the repo group excludes both `/` and `.`, so
either `t` itself is nonempty, dot-free and slash-free, or `t` ends in the
literal `.git` and the part before it is nonempty, dot-free and slash-free. -/
def stripSshGit (t : List Char) : Option (List Char) :=
  if !t.isEmpty && t.all (fun c => !(c == '.') && !(c == '/')) then some t
  else if 4 < t.length && (t.drop (t.length - 4) == litDotGit) &&
          (t.take (t.length - 4)).all (fun c => !(c == '.') && !(c == '/')) then
    some (t.take (t.length - 4))
  else none

/-- Model of matching `sshRegex = git@([^:]+):([^\/]+)\/([^\/\.]+?)(?:\.git)?$`
at one candidate start position: the literal `git@`, then group 1 is the
(maximal, since `[^:]+` cannot cross `:`) run up to the first `:`, group 2 the
run up to the first `/` after that, and group 3 covers the rest per
`stripSshGit`.  Returns (group 2, group 3) = (owner, repo). -/
def trySsh2At : List Char → Option (List Char × List Char)
  | 'g' :: 'i' :: 't' :: '@' :: rest =>
    let g1 := rest.takeWhile (fun c => !(c == ':'))
    if g1.isEmpty then none
    else
      match rest.dropWhile (fun c => !(c == ':')) with
      | _ :: rest2 =>
        let own := rest2.takeWhile (fun c => !(c == '/'))
        if own.isEmpty then none
        else
          match rest2.dropWhile (fun c => !(c == '/')) with
          | _ :: tail => (stripSshGit tail).map (fun rp => (own, rp))
          | [] => none
      | [] => none
  | _ => none

/-- Model of matching `customSshRegex =
`git@[^-]+-[^:]+:([^\/]+)\/([^\/\.]+?)(?:\.git)?$` at one candidate start
position: after `git@`, a nonempty run up to the first `-`, the `-`, a nonempty
run up to the first `:` after it, the `:`, then group 1 up to the first `/` and
group 2 per `stripSshGit`.  Returns (group 1, group 2) = (owner, repo). -/
def trySsh3At : List Char → Option (List Char × List Char)
  | 'g' :: 'i' :: 't' :: '@' :: rest =>
    let a := rest.takeWhile (fun c => !(c == '-'))
    if a.isEmpty then none
    else
      match rest.dropWhile (fun c => !(c == '-')) with
      | _ :: rest2 =>
        let b := rest2.takeWhile (fun c => !(c == ':'))
        if b.isEmpty then none
        else
          match rest2.dropWhile (fun c => !(c == ':')) with
          | _ :: rest3 =>
            let own := rest3.takeWhile (fun c => !(c == '/'))
            if own.isEmpty then none
            else
              match rest3.dropWhile (fun c => !(c == '/')) with
              | _ :: tail => (stripSshGit tail).map (fun rp => (own, rp))
              | [] => none
          | [] => none
      | [] => none
  | _ => none

/-- Unanchored regex search: try the pattern at every start position from left
to right, first success wins (both SSH regexes begin with the literal `git@`,
so only positions where `git@` occurs can succeed). -/
def findMatch (f : List Char → Option (List Char × List Char)) :
    List Char → Option (List Char × List Char)
  | [] => f []
  | l@(_ :: rest) =>
    match f l with
    | some p => some p
    | none => findMatch f rest

/-- The default "..." suffix of `StringUtils.truncate`. -/
def litDots : List Char := ("...").toList

/-- The trimming and 2000-character cap applied by `parseGitHubUrl` before
matching: `StringUtils.truncate(remoteUrl.trim(), 2000)`. -/
def prepUrl (remoteUrl : List Char) : List Char :=
  truncate (jsTrim remoteUrl) 2000 litDots

/-- The three-stage matching of `parseGitHubUrl`: the HTTPS regex is attempted
only when the URL contains both "github" and "http"; if owner and repo are
still unset, the standard SSH regex is attempted, then the custom SSH-config
regex.  Regex groups are nonempty, so "owner and repo still empty" is exactly
"no match yet". -/
def resolveOwnerRepo (url : List Char) : Option (List Char × List Char) :=
  let httpsRes :=
    if includesStr litGithub url && includesStr litHttp url then matchHttps url else none
  match httpsRes with
  | some p => some p
  | none =>
    match findMatch trySsh2At url with
    | some p => some p
    | none => findMatch trySsh3At url

/-- Error outcomes of `parseGitHubUrl`: the empty-URL guard, the
"Cannot parse GitHub owner and repo from URL" failure, and the
"must not be empty after sanitization" validation failure. -/
inductive ParseErr
  | emptyUrl
  | unparseable
  | emptyAfterSanitize
deriving DecidableEq

deriving instance DecidableEq for Except

/-- Model of `GitHubAPI.parseGitHubUrl`: guard against empty input, trim and
cap the URL, run the three regex stages, fail if none matched, sanitize owner
and repo, fail if either is empty after sanitization, else return the pair. -/
def parseGitHubUrl (remoteUrl : List Char) : Except ParseErr (List Char × List Char) :=
  if remoteUrl.isEmpty then .error .emptyUrl
  else
    let url := prepUrl remoteUrl
    match resolveOwnerRepo url with
    | none => .error .unparseable
    | some (ow, rp) =>
      let ow2 := sanitizeUrlComponent ow
      let rp2 := sanitizeUrlComponent rp
      if ow2.isEmpty || rp2.isEmpty then .error .emptyAfterSanitize
      else .ok (ow2, rp2)

/-- The `_initializationStatus` field values of `GitHubAPI`. -/
inductive InitStatus
  | notStarted
  | inProgress
  | initialized
  | failed
deriving DecidableEq

/-- Typed view of the `Error` objects thrown by the modelled methods,
one constructor per distinct `new Error(...)` site (or `api` for errors
propagated from the remote API client, carrying the message and the
optional HTTP status). -/
inductive GHError
  | notInitialized
  | titleRequired
  | titleLength
  | commentRequired
  | invalidIssueNumber
  | repoDetailsUnavailable
  | authTimedOut
  | authRequired
  | repoNotDetected
  | connectionLost
  | authFailed
  | api (msg : List Char) (status : Option Nat)
deriving DecidableEq

/-- The mutable fields of the `GitHubAPI` singleton. -/
structure GitHubState where
  octokit : Bool
  token : Option (List Char)
  owner : Option (List Char)
  repo : Option (List Char)
  cachedRepoDetails : Option (List Char × List Char)
  initializationStatus : InitStatus
  initializationError : Option GHError
  initializationPromiseActive : Bool
deriving DecidableEq

/-- Environment of the authentication step: the eventual outcome of
`vscode.authentication.getSession` (an error, no session, or a session with an
access token) together with the time in milliseconds at which it settles. -/
structure AuthEnv where
  result : Except (List Char) (Option (List Char))
  time : Nat
deriving DecidableEq

/-- The substring "timed out" checked on the caught authentication error. -/
def litTimedOut : List Char := ("timed out").toList

/-- The message of the rejection injected by the 30-second timer. -/
def litAuthTimedOutMsg : List Char := ("Authentication timed out").toList

/-- Model of `Promise.race([getSession(...), 30s-timeout])`: if the session
outcome settles after the 30000 ms timer fires, the caller observes the
timer's rejection instead. -/
def racedAuthResult (env : AuthEnv) : Except (List Char) (Option (List Char)) :=
  if 30000 < env.time then .error litAuthTimedOutMsg else env.result

/-- Model of `GitHubAPI._initialize`, with the repository-detection outcome
(`detectRepositoryDetails`, which catches its own errors and returns null on
failure) passed in as `repoInfo`.  Returns the thrown error or `true`,
together with the updated state.  Note the order of effects: the Octokit
client and token are stored as soon as authentication succeeds, before
repository detection, so a repository-detection failure leaves the client
handle set while the status becomes `failed`. -/
def runInitSequence (st : GitHubState) (env : AuthEnv)
    (repoInfo : Option (List Char × List Char)) : Except GHError Bool × GitHubState :=
  match racedAuthResult env with
  | .error m =>
    if includesStr litTimedOut m then
      (.error .authTimedOut,
       { st with initializationStatus := .failed, initializationError := some .authTimedOut })
    else
      (.error (.api m none),
       { st with initializationStatus := .failed, initializationError := some (.api m none) })
  | .ok none =>
    (.error .authRequired,
     { st with initializationStatus := .failed, initializationError := some .authRequired })
  | .ok (some tok) =>
    let st1 := { st with octokit := true, token := some tok }
    match repoInfo with
    | none =>
      (.error .repoNotDetected,
       { st1 with initializationStatus := .failed, initializationError := some .repoNotDetected })
    | some (ow, rp) =>
      (.ok true,
       { st1 with owner := some ow, repo := some rp, cachedRepoDetails := some (ow, rp),
                  initializationStatus := .initialized })

/-- Model of one call to `GitHubAPI.initialize`: if an initialization promise
is already in flight its result is returned unchanged; if already initialized,
`true` is returned immediately; otherwise the status is set to `in-progress`,
`_initialize` runs, and the promise reference is cleared afterwards.  The last
component counts the authentication/resolution sequences started (executions
of `_initialize`, each performing one `getSession` handshake). -/
def runInitCall (st : GitHubState) (env : AuthEnv)
    (repoInfo : Option (List Char × List Char)) (inflight : Except GHError Bool) :
    Except GHError Bool × GitHubState × Nat :=
  if st.initializationPromiseActive then (inflight, st, 0)
  else if st.initializationStatus = .initialized then (.ok true, st, 0)
  else
    let st1 := { st with initializationStatus := .inProgress,
                         initializationPromiseActive := true }
    let out := runInitSequence st1 env repoInfo
    (out.1, { out.2 with initializationPromiseActive := false }, 1)

/-- What the synchronous prefix of one `initialize` call decides before the
first suspension point: join the in-flight promise, return immediately because
already initialized, or start a new `_initialize` execution (storing the new
promise and setting the status to `in-progress`). -/
inductive InitCallMode
  | joinExisting
  | alreadyDone
  | startNew
deriving DecidableEq

/-- The synchronous prefix of `initialize`, mirroring the order of its two
early-return checks. -/
def initCallSyncStep (st : GitHubState) : InitCallMode × GitHubState :=
  if st.initializationPromiseActive then (.joinExisting, st)
  else if st.initializationStatus = .initialized then (.alreadyDone, st)
  else
    (.startNew, { st with initializationStatus := .inProgress,
                          initializationPromiseActive := true })

/-- Scenario of two `initialize` calls issued back-to-back before either
resolves: caller A runs its synchronous prefix, caller B runs its synchronous
prefix (A's `_initialize` performs no state write before its first `await`),
then the single in-flight `_initialize` execution (if one was started) runs
and its outcome is delivered to every caller that started or joined it; a
caller that saw `initialized` gets `true`.  Result: A's outcome, B's outcome,
the final state, and the number of authentication sequences started. -/
def twoConcurrentInitCalls (st : GitHubState) (env : AuthEnv)
    (repoInfo : Option (List Char × List Char)) (inflightPrev : Except GHError Bool) :
    Except GHError Bool × Except GHError Bool × GitHubState × Nat :=
  let a := initCallSyncStep st
  let b := initCallSyncStep a.2
  if a.1 = .startNew ∨ b.1 = .startNew then
    let out := runInitSequence b.2 env repoInfo
    let resOf : InitCallMode → Except GHError Bool := fun m =>
      match m with
      | .alreadyDone => .ok true
      | _ => out.1
    (resOf a.1, resOf b.1, { out.2 with initializationPromiseActive := false },
     (match a.1 with | .startNew => 1 | _ => 0) +
     (match b.1 with | .startNew => 1 | _ => 0))
  else
    let resOf : InitCallMode → Except GHError Bool := fun m =>
      match m with
      | .alreadyDone => .ok true
      | _ => inflightPrev
    (resOf a.1, resOf b.1, b.2, 0)

/-- Payload of a successful remote API call (`response.data.html_url`,
`response.data.number`; other wrappers reuse it as an opaque data record). -/
structure ApiData where
  htmlUrl : List Char
  number : Nat
deriving DecidableEq

/-- Outcome of one attempt of a remote API call: success with data, or a
thrown error with its message and optional HTTP status. -/
inductive ApiOutcome
  | ok (data : ApiData)
  | err (msg : List Char) (status : Option Nat)
deriving DecidableEq

/-- The substring "other side closed". -/
def litOtherSideClosed : List Char := ("other side closed").toList

/-- The substring "ECONNRESET". -/
def litEconnReset : List Char := ("ECONNRESET").toList

/-- The substring "ETIMEDOUT". -/
def litEtimedOut : List Char := ("ETIMEDOUT").toList

/-- The substring "network timeout". -/
def litNetworkTimeout : List Char := ("network timeout").toList

/-- The substring "Bad credentials". -/
def litBadCredentials : List Char := ("Bad credentials").toList

/-- The retryable-network-issue test of `createIssue`: the error message
contains one of the four transient substrings. -/
def transientMsg (m : List Char) : Bool :=
  includesStr litOtherSideClosed m || includesStr litEconnReset m ||
  includesStr litEtimedOut m || includesStr litNetworkTimeout m

/-- The retry loop of `createIssue` (`for attempt = 1..maxRetries`), written
with `left = maxRetries - attempt` as the structural recursion argument, so
`attempt < maxRetries` is `left > 0`.  `responses attempt` is the outcome of
the attempt-th API call.  On a transient error the loop always waits
`attempt * 1000` ms (the `setTimeout` runs before the `attempt < maxRetries`
test), then retries if attempts remain; on a non-transient error it breaks at
once.  Returns the first success or the last error, with the total wait. -/
def createIssueLoopAux (responses : Nat → ApiOutcome) :
    Nat → Nat → Nat → Except (List Char × Option Nat) ApiData × Nat
  | left, attempt, waited =>
    match responses attempt with
    | .ok d => (.ok d, waited)
    | .err msg status =>
      if transientMsg msg then
        let waited2 := waited + attempt * 1000
        match left with
        | l + 1 => createIssueLoopAux responses l (attempt + 1) waited2
        | 0 => (.error (msg, status), waited2)
      else (.error (msg, status), waited)

/-- The retry loop started at attempt 1 with `maxRetries = 3` (two retries
remaining) and no wait accumulated. -/
def createIssueLoop (responses : Nat → ApiOutcome) :
    Except (List Char × Option Nat) ApiData × Nat :=
  createIssueLoopAux responses 2 1 0

/-- The 401 test of `createIssue`'s catch block:
`error.status === 401 || error.message?.includes('Bad credentials')`.
Only errors propagated from the API carry a status; the substituted
"Connection to GitHub was lost" error has no status and its fixed message does
not contain "Bad credentials", and likewise for the other locally-thrown
errors reaching this catch. -/
def is401 : GHError → Bool
  | .api m s => s == some 401 || includesStr litBadCredentials m
  | _ => false

/-- Model of `GitHubAPI.createIssue`: `checkInitialized` (which throws iff the
Octokit handle is unset), title validation, repository details lookup, then
the retry loop; afterwards an exhausted "other side closed" error is replaced
by the friendly connection-lost error, and the catch block maps 401-class
errors to the re-authenticate error.  Returns the outcome together with the
total milliseconds waited in backoff. -/
def createIssue (st : GitHubState) (title description : List Char)
    (responses : Nat → ApiOutcome) : Except GHError ApiData × Nat :=
  if !st.octokit then (.error .notInitialized, 0)
  else if title.isEmpty || (jsTrim title).isEmpty then (.error .titleRequired, 0)
  else if !validateLength title 1 256 then (.error .titleLength, 0)
  else
    match st.cachedRepoDetails with
    | none => (.error .repoDetailsUnavailable, 0)
    | some _ =>
      match createIssueLoop responses with
      | (.ok d, w) => (.ok d, w)
      | (.error (msg, status), w) =>
        let e : GHError :=
          if includesStr litOtherSideClosed msg then .connectionLost else .api msg status
        if is401 e then (.error .authFailed, w) else (.error e, w)

/-- Model of `GitHubAPI.editIssue`: `checkInitialized`, issue-number and title
validation, repository details, then exactly one API call (`responses 1`);
any error from it is propagated unchanged (no retry, no 401 mapping). -/
def editIssue (st : GitHubState) (issueNumber : Int) (title body : List Char)
    (responses : Nat → ApiOutcome) : Except GHError ApiData :=
  if !st.octokit then .error .notInitialized
  else if issueNumber ≤ 0 then .error .invalidIssueNumber
  else if title.isEmpty || (jsTrim title).isEmpty then .error .titleRequired
  else if !validateLength title 1 256 then .error .titleLength
  else
    match st.cachedRepoDetails with
    | none => .error .repoDetailsUnavailable
    | some _ =>
      match responses 1 with
      | .ok d => .ok d
      | .err m s => .error (.api m s)

/-- Model of `GitHubAPI.addCommentToIssue`: `checkInitialized`, comment then
issue-number validation, repository details, one API call, errors propagated
unchanged. -/
def addCommentToIssue (st : GitHubState) (issueNumber : Int) (comment : List Char)
    (responses : Nat → ApiOutcome) : Except GHError ApiData :=
  if !st.octokit then .error .notInitialized
  else if comment.isEmpty || (jsTrim comment).isEmpty then .error .commentRequired
  else if issueNumber ≤ 0 then .error .invalidIssueNumber
  else
    match st.cachedRepoDetails with
    | none => .error .repoDetailsUnavailable
    | some _ =>
      match responses 1 with
      | .ok d => .ok d
      | .err m s => .error (.api m s)

/-- Model of `GitHubAPI.searchSimilarIssues`: `checkInitialized`; an empty
title returns the empty result without touching the network; otherwise one
API call with the sanitized query. -/
def searchSimilarIssues (st : GitHubState) (title : List Char)
    (responses : Nat → ApiOutcome) : Except GHError (Option ApiData) :=
  if !st.octokit then .error .notInitialized
  else if title.isEmpty then .ok none
  else
    match st.cachedRepoDetails with
    | none => .error .repoDetailsUnavailable
    | some _ =>
      match responses 1 with
      | .ok d => .ok (some d)
      | .err m s => .error (.api m s)

/-- Model of `GitHubAPI.getIssueDetails`: `checkInitialized`, issue-number
validation, repository details, one API call. -/
def getIssueDetails (st : GitHubState) (issueNumber : Int)
    (responses : Nat → ApiOutcome) : Except GHError ApiData :=
  if !st.octokit then .error .notInitialized
  else if issueNumber ≤ 0 then .error .invalidIssueNumber
  else
    match st.cachedRepoDetails with
    | none => .error .repoDetailsUnavailable
    | some _ =>
      match responses 1 with
      | .ok d => .ok d
      | .err m s => .error (.api m s)

/-- Model of `GitHubAPI.getIssueComments`: same shape as `getIssueDetails`. -/
def getIssueComments (st : GitHubState) (issueNumber : Int)
    (responses : Nat → ApiOutcome) : Except GHError ApiData :=
  if !st.octokit then .error .notInitialized
  else if issueNumber ≤ 0 then .error .invalidIssueNumber
  else
    match st.cachedRepoDetails with
    | none => .error .repoDetailsUnavailable
    | some _ =>
      match responses 1 with
      | .ok d => .ok d
      | .err m s => .error (.api m s)

/-- Model of `GitHubAPI.closeIssue`: same shape as `getIssueDetails`. -/
def closeIssue (st : GitHubState) (issueNumber : Int)
    (responses : Nat → ApiOutcome) : Except GHError ApiData :=
  if !st.octokit then .error .notInitialized
  else if issueNumber ≤ 0 then .error .invalidIssueNumber
  else
    match st.cachedRepoDetails with
    | none => .error .repoDetailsUnavailable
    | some _ =>
      match responses 1 with
      | .ok d => .ok d
      | .err m s => .error (.api m s)

/-- Model of `GitHubAPI.reopenIssue`: same shape as `getIssueDetails`. -/
def reopenIssue (st : GitHubState) (issueNumber : Int)
    (responses : Nat → ApiOutcome) : Except GHError ApiData :=
  if !st.octokit then .error .notInitialized
  else if issueNumber ≤ 0 then .error .invalidIssueNumber
  else
    match st.cachedRepoDetails with
    | none => .error .repoDetailsUnavailable
    | some _ =>
      match responses 1 with
      | .ok d => .ok d
      | .err m s => .error (.api m s)

/-- The filter argument of `getTechDebtIssuesWithFilter` (absent fields are
`none`; JavaScript treats the empty string as falsy wherever truthiness is
tested). -/
structure IssueFilter where
  state : Option (List Char)
  assignee : Option (List Char)
  creator : Option (List Char)
deriving DecidableEq

/-- The query parameter record built by `getTechDebtIssuesWithFilter`. -/
structure ListParams where
  owner : List Char
  repo : List Char
  labels : List Char
  state : List Char
  perPage : Nat
  assignee : Option (List Char)
  creator : Option (List Char)
deriving DecidableEq

/-- JavaScript truthiness of an optional string field: present and nonempty. -/
def truthyOpt : Option (List Char) → Option (List Char)
  | some s => if s.isEmpty then none else some s
  | none => none

/-- The literal "open". -/
def litOpen : List Char := ("open").toList

/-- The literal "closed". -/
def litClosed : List Char := ("closed").toList

/-- The literal "all". -/
def litAll : List Char := ("all").toList

/-- The literal "tech-debt". -/
def litTechDebt : List Char := ("tech-debt").toList

/-- Model of `GitHubAPI.getTechDebtIssuesWithFilter`: `checkInitialized`,
repository details, then the parameter record: the state is kept only when
truthy and one of open/closed/all (otherwise silently "open"); a truthy
assignee or creator is added after `sanitizeUrlComponent`; one API call.
Returns the built parameters together with the response data. -/
def getTechDebtIssuesWithFilter (st : GitHubState) (filter : IssueFilter)
    (responses : Nat → ApiOutcome) : Except GHError (ListParams × ApiData) :=
  if !st.octokit then .error .notInitialized
  else
    match st.cachedRepoDetails with
    | none => .error .repoDetailsUnavailable
    | some (ow, rp) =>
      let stateVal :=
        match filter.state with
        | some s =>
          if !s.isEmpty && (s == litOpen || s == litClosed || s == litAll) then s
          else litOpen
        | none => litOpen
      let params0 : ListParams :=
        { owner := ow, repo := rp, labels := litTechDebt, state := stateVal,
          perPage := 100, assignee := none, creator := none }
      let params1 :=
        match truthyOpt filter.assignee with
        | some a => { params0 with assignee := some (sanitizeUrlComponent a) }
        | none => params0
      let params :=
        match truthyOpt filter.creator with
        | some c => { params1 with creator := some (sanitizeUrlComponent c) }
        | none => params1
      match responses 1 with
      | .ok d => .ok (params, d)
      | .err m s => .error (.api m s)

/-- Well-formed repository owner / name alphabet used to state the URL-shape
claims: ASCII digits, letters, hyphen, underscore. -/
def wordChar (c : Char) : Bool :=
  let n := c.toNat
  (48 ≤ n && n ≤ 57) || (65 ≤ n && n ≤ 90) || (97 ≤ n && n ≤ 122) ||
  n == 45 || n == 95

/-- Well-formed host alphabet: ASCII digits, letters, dot, hyphen. -/
def hostChar (c : Char) : Bool :=
  let n := c.toNat
  (48 ≤ n && n ≤ 57) || (65 ≤ n && n ≤ 90) || (97 ≤ n && n ≤ 122) ||
  n == 46 || n == 45

/-- Well-formed userinfo alphabet: ASCII digits, letters, dot, hyphen,
underscore. -/
def userChar (c : Char) : Bool :=
  let n := c.toNat
  (48 ≤ n && n ≤ 57) || (65 ≤ n && n ≤ 90) || (97 ≤ n && n ≤ 122) ||
  n == 46 || n == 45 || n == 95

/-- The scheme "https:". -/
def litHttpsScheme : List Char := ("https:").toList

/-- The scheme "http:". -/
def litHttpScheme : List Char := ("http:").toList

/-- The optional "www." prefix. -/
def litWwwDot : List Char := ("www.").toList

/-- Rendering of the HTTPS remote-URL shape
`scheme://(user@)?(www.)?host/owner/repo(.git)?`. -/
def renderHttps (secure usr www gitSuf : Bool) (u h o r : List Char) : List Char :=
  (if secure then litHttpsScheme else litHttpScheme) ++ '/' :: '/' ::
    (((if usr then u ++ ['@'] else []) ++ (if www then litWwwDot else []) ++ h) ++ '/' ::
      (o ++ '/' :: (r ++ (if gitSuf then litDotGit else []))))

/-- Rendering of the SSH remote-URL shape `git@host:owner/repo(.git)?`
(hosts containing a hyphen cover the custom SSH-alias shape
`git@host-alias:owner/repo(.git)?`). -/
def renderSsh (gitSuf : Bool) (h o r : List Char) : List Char :=
  'g' :: 'i' :: 't' :: '@' ::
    (h ++ ':' :: (o ++ '/' :: (r ++ (if gitSuf then litDotGit else []))))

/-- Output characters of the sanitizer are all single spaces wherever they are
whitespace at all. -/
def allWsSingle (l : List Char) : Prop := ∀ c ∈ l, isJsSpace c = true → c = ' '

/-- No two adjacent whitespace characters (whitespace runs are collapsed). -/
def noAdjSpace (l : List Char) : Prop :=
  l.Chain' (fun a b => ¬(isJsSpace a = true ∧ isJsSpace b = true))

/-- The freshly constructed `GitHubAPI` singleton state: no client, no token,
no repository, status `not-started`, no retained error, no in-flight promise. -/
def stFresh : GitHubState :=
  { octokit := false, token := none, owner := none, repo := none,
    cachedRepoDetails := none, initializationStatus := .notStarted,
    initializationError := none, initializationPromiseActive := false }

/-- A state after a fully successful initialization for repository `o1/r1`:
client and token held, repository cached, status `initialized`. -/
def stReady : GitHubState :=
  { octokit := true, token := some (("tok").toList), owner := some (("o1").toList),
    repo := some (("r1").toList),
    cachedRepoDetails := some ((("o1").toList), (("r1").toList)),
    initializationStatus := .initialized, initializationError := none,
    initializationPromiseActive := false }

/-- The state reached when authentication succeeds but repository detection
returns null: `_initialize` stores the client and token first, then fails, so
the status is `failed` while the client handle remains set. -/
def stFailedAfterAuth : GitHubState :=
  { (runInitSequence
      { stFresh with initializationStatus := .inProgress,
                     initializationPromiseActive := true }
      { result := .ok (some (("tok").toList)), time := 0 } none).2
    with initializationPromiseActive := false }

/-- Characters are equal iff their code points are. -/
lemma char_eq_of_toNat {c d : Char} (h : c.toNat = d.toNat) : c = d :=
  Char.eq_of_val_eq (UInt32.ext h)

/-- Distinct code points give `==` false. -/
lemma char_beq_false {c d : Char} (h : c.toNat ≠ d.toNat) : (c == d) = false := by
  cases hb : (c == d)
  · rfl
  · exact absurd (congrArg Char.toNat (eq_of_beq hb)) h

/-- Code-point ranges of `wordChar`. -/
lemma wordChar_ranges {c : Char} (h : wordChar c = true) :
    (48 ≤ c.toNat ∧ c.toNat ≤ 57) ∨ (65 ≤ c.toNat ∧ c.toNat ≤ 90) ∨
    (97 ≤ c.toNat ∧ c.toNat ≤ 122) ∨ c.toNat = 45 ∨ c.toNat = 95 := by
  simp [wordChar] at h; omega

/-- Code-point ranges of `hostChar`. -/
lemma hostChar_ranges {c : Char} (h : hostChar c = true) :
    (48 ≤ c.toNat ∧ c.toNat ≤ 57) ∨ (65 ≤ c.toNat ∧ c.toNat ≤ 90) ∨
    (97 ≤ c.toNat ∧ c.toNat ≤ 122) ∨ c.toNat = 46 ∨ c.toNat = 45 := by
  simp [hostChar] at h; omega

/-- Code-point ranges of `userChar`. -/
lemma userChar_ranges {c : Char} (h : userChar c = true) :
    (48 ≤ c.toNat ∧ c.toNat ≤ 57) ∨ (65 ≤ c.toNat ∧ c.toNat ≤ 90) ∨
    (97 ≤ c.toNat ∧ c.toNat ≤ 122) ∨ c.toNat = 46 ∨ c.toNat = 45 ∨ c.toNat = 95 := by
  simp [userChar] at h; omega

/-- Word characters are not JavaScript whitespace. -/
lemma wordChar_not_space {c : Char} (h : wordChar c = true) : isJsSpace c = false := by
  have hr := wordChar_ranges h
  cases hs : isJsSpace c
  · rfl
  · exfalso; simp [isJsSpace] at hs; omega

/-- Host characters are not JavaScript whitespace. -/
lemma hostChar_not_space {c : Char} (h : hostChar c = true) : isJsSpace c = false := by
  have hr := hostChar_ranges h
  cases hs : isJsSpace c
  · rfl
  · exfalso; simp [isJsSpace] at hs; omega

/-- Userinfo characters are not JavaScript whitespace. -/
lemma userChar_not_space {c : Char} (h : userChar c = true) : isJsSpace c = false := by
  have hr := userChar_ranges h
  cases hs : isJsSpace c
  · rfl
  · exfalso; simp [isJsSpace] at hs; omega

/-- Word characters are not removed by the path-traversal filter. -/
lemma wordChar_not_dotslash {c : Char} (h : wordChar c = true) :
    isDotSlashChar c = false := by
  have hr := wordChar_ranges h
  cases hs : isDotSlashChar c
  · rfl
  · exfalso; simp [isDotSlashChar] at hs; omega

/-- Word characters are not removed by the punctuation filter. -/
lemma wordChar_not_danger {c : Char} (h : wordChar c = true) :
    isDangerChar c = false := by
  have hr := wordChar_ranges h
  cases hs : isDangerChar c
  · rfl
  · exfalso; simp [isDangerChar] at hs; omega

/-- Word characters are not `/`. -/
lemma wordChar_ne_slash {c : Char} (h : wordChar c = true) : (c == '/') = false := by
  have hr := wordChar_ranges h
  exact char_beq_false (by have : ('/' : Char).toNat = 47 := rfl; omega)

/-- Word characters are not `:`. -/
lemma wordChar_ne_colon {c : Char} (h : wordChar c = true) : (c == ':') = false := by
  have hr := wordChar_ranges h
  exact char_beq_false (by have : (':' : Char).toNat = 58 := rfl; omega)

/-- Word characters are not `.`. -/
lemma wordChar_ne_dot {c : Char} (h : wordChar c = true) : (c == '.') = false := by
  have hr := wordChar_ranges h
  exact char_beq_false (by have : ('.' : Char).toNat = 46 := rfl; omega)

/-- Word characters are not the newline. -/
lemma wordChar_ne_nl {c : Char} (h : wordChar c = true) : (c == '\n') = false := by
  have hr := wordChar_ranges h
  exact char_beq_false (by have : ('\n' : Char).toNat = 10 := rfl; omega)

/-- Host characters are not `/`. -/
lemma hostChar_ne_slash {c : Char} (h : hostChar c = true) : (c == '/') = false := by
  have hr := hostChar_ranges h
  exact char_beq_false (by have : ('/' : Char).toNat = 47 := rfl; omega)

/-- Host characters are not `:`. -/
lemma hostChar_ne_colon {c : Char} (h : hostChar c = true) : (c == ':') = false := by
  have hr := hostChar_ranges h
  exact char_beq_false (by have : (':' : Char).toNat = 58 := rfl; omega)

/-- Host characters are not the newline. -/
lemma hostChar_ne_nl {c : Char} (h : hostChar c = true) : (c == '\n') = false := by
  have hr := hostChar_ranges h
  exact char_beq_false (by have : ('\n' : Char).toNat = 10 := rfl; omega)

/-- Userinfo characters are not `/`. -/
lemma userChar_ne_slash {c : Char} (h : userChar c = true) : (c == '/') = false := by
  have hr := userChar_ranges h
  exact char_beq_false (by have : ('/' : Char).toNat = 47 := rfl; omega)

/-- `takeWhile` skips over a block of characters all satisfying the predicate. -/
lemma takeWhile_append_all (p : Char → Bool) (a b : List Char)
    (ha : ∀ c ∈ a, p c = true) : (a ++ b).takeWhile p = a ++ b.takeWhile p := by
  induction a with
  | nil => rfl
  | cons c t ih =>
    have hc := ha c (List.mem_cons_self c t)
    simp only [List.cons_append, List.takeWhile_cons, hc, if_true]
    rw [ih (fun x hx => ha x (List.mem_cons_of_mem c hx))]

/-- `dropWhile` consumes a block of characters all satisfying the predicate. -/
lemma dropWhile_append_all (p : Char → Bool) (a b : List Char)
    (ha : ∀ c ∈ a, p c = true) : (a ++ b).dropWhile p = b.dropWhile p := by
  induction a with
  | nil => rfl
  | cons c t ih =>
    have hc := ha c (List.mem_cons_self c t)
    simp only [List.cons_append, List.dropWhile_cons, hc, if_true]
    exact ih (fun x hx => ha x (List.mem_cons_of_mem c hx))

/-- `dropWhile` is the identity when no character satisfies the predicate. -/
lemma dropWhile_all_false (p : Char → Bool) (l : List Char)
    (h : ∀ c ∈ l, p c = false) : l.dropWhile p = l := by
  cases l with
  | nil => rfl
  | cons c t =>
    simp only [List.dropWhile_cons, h c (List.mem_cons_self c t)]
    simp

/-- `jsTrim` is the identity on whitespace-free strings. -/
lemma jsTrim_eq_self (l : List Char) (h : ∀ c ∈ l, isJsSpace c = false) :
    jsTrim l = l := by
  unfold jsTrim
  rw [dropWhile_all_false _ _ h,
      dropWhile_all_false _ _ (fun c hc => h c (List.mem_reverse.mp hc)),
      List.reverse_reverse]

/-- `truncate` is the identity within the length cap. -/
lemma truncate_of_le (l : List Char) (n : Nat) (suf : List Char)
    (h : l.length ≤ n) : truncate l n suf = l := by
  unfold truncate
  rcases l with _ | ⟨c, t⟩
  · simp
  · rw [if_neg (by simp), if_pos h]

/-- The empty needle is contained in every string. -/
lemma includesStr_nil (l : List Char) : includesStr [] l = true := by
  cases l with
  | nil => rfl
  | cons c t => simp [includesStr]

/-- A prefix at the start witnesses containment. -/
lemma includesStr_of_isPrefixOf (needle hay : List Char)
    (h : needle.isPrefixOf hay = true) : includesStr needle hay = true := by
  cases hay with
  | nil =>
    cases needle with
    | nil => rfl
    | cons c t => simp [List.isPrefixOf] at h
  | cons c t => simp [includesStr, h]

/-- Containment is preserved by prepending. -/
lemma includesStr_append_right (needle pre hay : List Char)
    (h : includesStr needle hay = true) : includesStr needle (pre ++ hay) = true := by
  induction pre with
  | nil => exact h
  | cons c p ih => simp [includesStr, ih]

/-- Containment is preserved by appending. -/
lemma includesStr_append_left (needle hay post : List Char)
    (h : includesStr needle hay = true) : includesStr needle (hay ++ post) = true := by
  induction hay with
  | nil =>
    have : needle = [] := by
      cases needle with
      | nil => rfl
      | cons c t => simp [includesStr] at h
    rw [this]
    exact includesStr_nil _
  | cons c t ih =>
    rw [List.cons_append]
    simp only [includesStr, Bool.or_eq_true] at h
    rcases h with h1 | h2
    · have hp : needle <+: (c :: t) := List.isPrefixOf_iff_prefix.mp h1
      have hp2 : needle.isPrefixOf (c :: (t ++ post)) = true := by
        rw [show c :: (t ++ post) = (c :: t) ++ post from rfl]
        exact List.isPrefixOf_iff_prefix.mpr (hp.trans (List.prefix_append _ _))
      simp [includesStr, hp2]
    · simp [includesStr, ih h2]

/-- Containment of a middle block. -/
lemma includesStr_of_middle (needle pre mid post : List Char)
    (h : includesStr needle mid = true) :
    includesStr needle (pre ++ mid ++ post) = true := by
  rw [List.append_assoc]
  exact includesStr_append_right _ _ _ (includesStr_append_left _ _ _ h)

/-- A string contains itself. -/
lemma includesStr_self (l : List Char) : includesStr l l = true := by
  cases l with
  | nil => rfl
  | cons c t =>
    have : (c :: t).isPrefixOf (c :: t) = true :=
      List.isPrefixOf_iff_prefix.mpr (List.prefix_refl _)
    simp [includesStr, this]

/-- `splitSlash` peels off a slash-free block before a slash. -/
lemma splitSlash_append (a rest : List Char) (ha : ∀ c ∈ a, (c == '/') = false) :
    splitSlash (a ++ '/' :: rest) = a :: splitSlash rest := by
  induction a with
  | nil => simp [splitSlash]
  | cons c t ih =>
    have hc := ha c (List.mem_cons_self c t)
    rw [List.cons_append]
    simp only [splitSlash, hc, Bool.false_eq_true, if_false,
      ih (fun x hx => ha x (List.mem_cons_of_mem c hx))]

/-- A slash-free string is a single segment. -/
lemma splitSlash_single (a : List Char) (ha : ∀ c ∈ a, (c == '/') = false) :
    splitSlash a = [a] := by
  induction a with
  | nil => rfl
  | cons c t ih =>
    have hc := ha c (List.mem_cons_self c t)
    simp only [splitSlash, hc, Bool.false_eq_true, if_false,
      ih (fun x hx => ha x (List.mem_cons_of_mem c hx))]

/-- Characters in the collapsed string come from the input or are the space. -/
lemma collapseAux_mem {c : Char} :
    ∀ (b : Bool) (l : List Char), c ∈ collapseAux b l → c = ' ' ∨ c ∈ l := by
  intro b l
  induction l generalizing b with
  | nil => intro h; exact absurd h (List.not_mem_nil c)
  | cons d t ih =>
    intro h
    by_cases hd : isJsSpace d = true
    · rcases b with _ | _
      · simp only [collapseAux, hd, if_true] at h
        rcases List.mem_cons.mp h with h1 | h2
        · exact Or.inl h1
        · rcases ih true h2 with h3 | h4
          · exact Or.inl h3
          · exact Or.inr (List.mem_cons_of_mem d h4)
      · simp only [collapseAux, hd, if_true] at h
        rcases ih true h with h3 | h4
        · exact Or.inl h3
        · exact Or.inr (List.mem_cons_of_mem d h4)
    · rw [Bool.not_eq_true] at hd
      simp only [collapseAux, hd, Bool.false_eq_true, if_false] at h
      rcases List.mem_cons.mp h with h1 | h2
      · exact Or.inr (h1 ▸ List.mem_cons_self d t)
      · rcases ih false h2 with h3 | h4
        · exact Or.inl h3
        · exact Or.inr (List.mem_cons_of_mem d h4)

/-- Whitespace characters in the collapsed string are plain spaces. -/
lemma collapseAux_allWs : ∀ (b : Bool) (l : List Char), allWsSingle (collapseAux b l) := by
  intro b l
  induction l generalizing b with
  | nil => intro c hc; exact absurd hc (List.not_mem_nil c)
  | cons d t ih =>
    intro c hc hcs
    by_cases hd : isJsSpace d = true
    · rcases b with _ | _
      · simp only [collapseAux, hd, if_true] at hc
        rcases List.mem_cons.mp hc with h1 | h2
        · exact h1
        · exact ih true c h2 hcs
      · simp only [collapseAux, hd, if_true] at hc
        exact ih true c hc hcs
    · rw [Bool.not_eq_true] at hd
      simp only [collapseAux, hd, Bool.false_eq_true, if_false] at hc
      rcases List.mem_cons.mp hc with h1 | h2
      · exact absurd (h1 ▸ hcs) (by simp [hd])
      · exact ih false c h2 hcs

/-- After the space-swallowing state, the collapsed string starts with a
non-space character. -/
lemma collapseAux_head_true :
    ∀ (l : List Char) (d : Char), (collapseAux true l).head? = some d →
      isJsSpace d = false := by
  intro l
  induction l with
  | nil => intro d h; simp [collapseAux] at h
  | cons c t ih =>
    intro d h
    by_cases hc : isJsSpace c = true
    · simp only [collapseAux, hc, if_true] at h
      exact ih d h
    · rw [Bool.not_eq_true] at hc
      simp only [collapseAux, hc, Bool.false_eq_true, if_false, List.head?_cons,
        Option.some.injEq] at h
      exact h ▸ hc

/-- No two adjacent whitespace characters survive collapsing. -/
lemma collapseAux_noAdj : ∀ (b : Bool) (l : List Char), noAdjSpace (collapseAux b l) := by
  intro b l
  induction l generalizing b with
  | nil => exact List.chain'_nil
  | cons d t ih =>
    by_cases hd : isJsSpace d = true
    · rcases b with _ | _
      · simp only [collapseAux, hd, if_true]
        refine List.chain'_cons'.mpr ⟨?_, ih true⟩
        intro e he hcontra
        have := collapseAux_head_true t e he
        simp [this] at hcontra
      · simp only [collapseAux, hd, if_true]
        exact ih true
    · rw [Bool.not_eq_true] at hd
      simp only [collapseAux, hd, Bool.false_eq_true, if_false]
      refine List.chain'_cons'.mpr ⟨?_, ih false⟩
      intro e he hcontra
      simp [hd] at hcontra

/-- Collapsing is the identity on strings that are already collapsed (all
whitespace is single spaces, none adjacent); with a clean head, this also
holds from the space-swallowing state. -/
lemma collapseAux_eq_self :
    ∀ (l : List Char), allWsSingle l → noAdjSpace l →
      collapseAux false l = l ∧
        ((∀ d, l.head? = some d → isJsSpace d = false) → collapseAux true l = l) := by
  intro l
  induction l with
  | nil => exact fun _ _ => ⟨rfl, fun _ => rfl⟩
  | cons c t ih =>
    intro h1 h2
    have h1t : allWsSingle t := fun x hx => h1 x (List.mem_cons_of_mem c hx)
    obtain ⟨hhead, h2t⟩ := List.chain'_cons'.mp h2
    obtain ⟨iht1, iht2⟩ := ih h1t h2t
    by_cases hc : isJsSpace c = true
    · have hcsp : c = ' ' := h1 c (List.mem_cons_self c t) hc
      have htclean : ∀ d, t.head? = some d → isJsSpace d = false := by
        intro d hd
        have := hhead d hd
        rw [Bool.eq_false_iff]
        intro hd2
        exact this ⟨hc, hd2⟩
      constructor
      · rw [hcsp] at hc ⊢
        simp only [collapseAux, hc, if_true, iht2 htclean, Bool.false_eq_true, if_false]
      · intro hclean
        exact absurd hc (by simp [hclean c rfl])
    · rw [Bool.not_eq_true] at hc
      constructor
      · simp only [collapseAux, hc, Bool.false_eq_true, if_false, iht1]
      · intro _
        simp only [collapseAux, hc, Bool.false_eq_true, if_false, iht1]

/-- Collapsing is the identity on whitespace-free strings. -/
lemma collapseAux_id_nospace :
    ∀ (b : Bool) (l : List Char), (∀ c ∈ l, isJsSpace c = false) → collapseAux b l = l := by
  intro b l
  induction l generalizing b with
  | nil => intro _; rfl
  | cons c t ih =>
    intro h
    have hc := h c (List.mem_cons_self c t)
    simp only [collapseAux, hc, Bool.false_eq_true, if_false]
    rw [ih false (fun x hx => h x (List.mem_cons_of_mem c hx))]

/-- The sanitizer is the identity on strings of word characters. -/
lemma sanitize_eq_self_of_word (l : List Char) (h : ∀ c ∈ l, wordChar c = true) :
    sanitizeUrlComponent l = l := by
  unfold sanitizeUrlComponent collapseWs
  rw [jsTrim_eq_self l (fun c hc => wordChar_not_space (h c hc))]
  rw [List.filter_eq_self.mpr (fun c hc => by
    simp [wordChar_not_danger (h c (List.mem_of_mem_filter hc))])]
  rw [List.filter_eq_self.mpr (fun c hc => by simp [wordChar_not_dotslash (h c hc)])]
  exact collapseAux_id_nospace false l (fun c hc => wordChar_not_space (h c hc))

/-- Characters of the sanitizer output never belong to the removed classes. -/
lemma sanitize_mem_clean (s : List Char) :
    ∀ c ∈ sanitizeUrlComponent s, isDotSlashChar c = false ∧ isDangerChar c = false := by
  intro c hc
  unfold sanitizeUrlComponent collapseWs at hc
  rcases collapseAux_mem false _ hc with h1 | h2
  · subst h1; exact ⟨rfl, rfl⟩
  · have h3 := List.of_mem_filter h2
    have h4 := List.of_mem_filter (List.mem_of_mem_filter h2)
    constructor
    · simpa using h4
    · simpa using h3

/-- The sanitizer output has all whitespace collapsed. -/
lemma sanitize_collapsed (s : List Char) :
    allWsSingle (sanitizeUrlComponent s) ∧ noAdjSpace (sanitizeUrlComponent s) :=
  ⟨collapseAux_allWs false _, collapseAux_noAdj false _⟩

/-- Re-sanitizing changes nothing when the sanitized output is trim-stable. -/
lemma sanitize_idem_of_trimmed (s : List Char)
    (h : jsTrim (sanitizeUrlComponent s) = sanitizeUrlComponent s) :
    sanitizeUrlComponent (sanitizeUrlComponent s) = sanitizeUrlComponent s := by
  have hclean := sanitize_mem_clean s
  conv_lhs => rw [sanitizeUrlComponent]
  rw [h]
  rw [List.filter_eq_self.mpr (fun c hc => by
    simp [(hclean c (List.mem_of_mem_filter hc)).2])]
  rw [List.filter_eq_self.mpr (fun c hc => by simp [(hclean c hc).1])]
  exact (collapseAux_eq_self _ (sanitize_collapsed s).1 (sanitize_collapsed s).2).1

/-- A trailing `.git` after a nonempty repo name is stripped. -/
lemma stripGitCI_append (r : List Char) (hr : r ≠ []) :
    stripGitCI (r ++ litDotGit) = r := by
  have hlen : (r ++ litDotGit).length = r.length + 4 := by simp [litDotGit]
  have hlen2 : r.length = (r ++ litDotGit).length - 4 := by omega
  have hdrop : (r ++ litDotGit).drop ((r ++ litDotGit).length - 4) = litDotGit :=
    List.drop_left' hlen2
  have htake : (r ++ litDotGit).take ((r ++ litDotGit).length - 4) = r :=
    List.take_left' hlen2
  have hends : endsWithDotGitCI (r ++ litDotGit) = true := by
    unfold endsWithDotGitCI
    rw [hdrop]
    rfl
  unfold stripGitCI
  rw [if_pos, htake]
  refine Bool.and_eq_true_iff.mpr ⟨?_, hends⟩
  have : 0 < r.length := List.length_pos.mpr hr
  exact decide_eq_true (by omega)

/-- Nothing is stripped from a dot-free segment. -/
lemma stripGitCI_no_dot (t : List Char) (ht : ∀ c ∈ t, (c == '.') = false) :
    stripGitCI t = t := by
  unfold stripGitCI
  rw [if_neg]
  intro hcond
  have h2 := (Bool.and_eq_true_iff.mp hcond).2
  unfold endsWithDotGitCI at h2
  rcases hdrop : t.drop (t.length - 4) with _ | ⟨a, rest⟩
  · rw [hdrop] at h2; exact absurd h2 (by simp)
  · rw [hdrop] at h2
    rcases rest with _ | ⟨b, rest2⟩
    · exact absurd h2 (by simp)
    · rcases rest2 with _ | ⟨c, rest3⟩
      · exact absurd h2 (by simp)
      · rcases rest3 with _ | ⟨d, rest4⟩
        · exact absurd h2 (by simp)
        · rcases rest4 with _ | ⟨e, rest5⟩
          · have ha : (a == '.') = true :=
              (Bool.and_eq_true_iff.mp
                ((Bool.and_eq_true_iff.mp (Bool.and_eq_true_iff.mp h2).1).1)).1
            have hamem : a ∈ t := by
              have ham : a ∈ t.drop (t.length - 4) := by
                rw [hdrop]; exact List.mem_cons_self _ _
              exact List.mem_of_mem_drop ham
            rw [ht a hamem] at ha
            exact absurd ha (by simp)
          · exact absurd h2 (by simp)

/-- A trailing `.git` is stripped by the SSH tail matcher when the name before
it is nonempty, dot-free and slash-free. -/
lemma stripSshGit_append (r : List Char) (hr : r ≠ [])
    (hdot : ∀ c ∈ r, (c == '.') = false) (hslash : ∀ c ∈ r, (c == '/') = false) :
    stripSshGit (r ++ litDotGit) = some r := by
  have hlen : (r ++ litDotGit).length = r.length + 4 := by simp [litDotGit]
  have hlen2 : r.length = (r ++ litDotGit).length - 4 := by omega
  have hdrop : (r ++ litDotGit).drop ((r ++ litDotGit).length - 4) = litDotGit :=
    List.drop_left' hlen2
  have htake : (r ++ litDotGit).take ((r ++ litDotGit).length - 4) = r :=
    List.take_left' hlen2
  unfold stripSshGit
  rw [if_neg, if_pos, htake]
  · refine Bool.and_eq_true_iff.mpr ⟨Bool.and_eq_true_iff.mpr ⟨?_, ?_⟩, ?_⟩
    · have : 0 < r.length := List.length_pos.mpr hr
      exact decide_eq_true (by omega)
    · rw [hdrop]; rfl
    · rw [htake]
      exact List.all_eq_true.mpr (fun c hc => by
        simp [hdot c hc, hslash c hc])
  · intro hcond
    have h2 := (Bool.and_eq_true_iff.mp hcond).2
    have hdotmem : ('.' : Char) ∈ r ++ litDotGit := by
      refine List.mem_append.mpr (Or.inr ?_)
      simp [litDotGit]
    have hall := List.all_eq_true.mp h2 '.' hdotmem
    simp at hall

/-- A nonempty dot-free slash-free segment is taken whole by the SSH tail
matcher. -/
lemma stripSshGit_plain (r : List Char) (hr : r ≠ [])
    (hdot : ∀ c ∈ r, (c == '.') = false) (hslash : ∀ c ∈ r, (c == '/') = false) :
    stripSshGit r = some r := by
  unfold stripSshGit
  rw [if_pos]
  refine Bool.and_eq_true_iff.mpr ⟨?_, ?_⟩
  · simp [hr]
  · exact List.all_eq_true.mpr (fun c hc => by simp [hdot c hc, hslash c hc])

/-- Matching the HTTPS regex against a string of shape
`p1 // mid / o / tail` (slash-free components, `mid` ending in a character
other than `:` and newline) extracts owner `o` and repo `stripGitCI tail`. -/
lemma matchHttps_shape (p1 mid o tail : List Char)
    (hp1 : ∀ c ∈ p1, (c == '/') = false)
    (hmid : ∀ c ∈ mid, (c == '/') = false)
    (c0 : Char) (hc0 : mid.getLast? = some c0)
    (hc1 : (c0 == ':') = false) (hc2 : (c0 == '\n') = false)
    (ho : o ≠ []) (ho2 : ∀ c ∈ o, (c == '\n') = false)
    (ho3 : ∀ c ∈ o, (c == '/') = false)
    (ht : tail ≠ []) (ht2 : ∀ c ∈ tail, (c == '\n') = false)
    (ht3 : ∀ c ∈ tail, (c == '/') = false) :
    matchHttps (p1 ++ '/' :: '/' :: (mid ++ '/' :: (o ++ '/' :: tail))) =
      some (o, stripGitCI tail) := by
  have hsplit : splitSlash (p1 ++ '/' :: '/' :: (mid ++ '/' :: (o ++ '/' :: tail))) =
      [p1, [], mid, o, tail] := by
    rw [splitSlash_append _ _ hp1]
    rw [show ('/' :: (mid ++ '/' :: (o ++ '/' :: tail))) =
      ([] : List Char) ++ '/' :: (mid ++ '/' :: (o ++ '/' :: tail)) from rfl]
    rw [splitSlash_append _ _ (by intro c hc; exact absurd hc (List.not_mem_nil c))]
    rw [splitSlash_append _ _ hmid, splitSlash_append _ _ ho3, splitSlash_single _ ht3]
  have hoe : o.isEmpty = false := by
    cases o with
    | nil => exact absurd rfl ho
    | cons c t => rfl
  have hte : tail.isEmpty = false := by
    cases tail with
    | nil => exact absurd rfl ht
    | cons c t => rfl
  have hoany : (o.any fun d => d == '\n') = false :=
    List.any_eq_false.mpr (fun a ha => by simp [ho2 a ha])
  have htany : (tail.any fun d => d == '\n') = false :=
    List.any_eq_false.mpr (fun a ha => by simp [ht2 a ha])
  unfold matchHttps
  rw [hsplit]
  have hrev : ([p1, [], mid, o, tail] : List (List Char)).reverse =
      [tail, o, mid, [], p1] := by rfl
  rw [hrev]
  simp only [hc0, hc1, hc2, hoe, hoany, hte, htany, Bool.or_self, Bool.or_false,
    Bool.false_eq_true, if_false]

/-- Matching the standard SSH regex at the start of a string of shape
`git@h:o/tail` (with `h` nonempty and colon-free, `o` nonempty and
slash-free). -/
lemma trySsh2_shape (hst o tail : List Char)
    (hh : hst ≠ []) (hhc : ∀ c ∈ hst, (c == ':') = false)
    (ho : o ≠ []) (hos : ∀ c ∈ o, (c == '/') = false) :
    trySsh2At ('g' :: 'i' :: 't' :: '@' :: (hst ++ ':' :: (o ++ '/' :: tail))) =
      (stripSshGit tail).map (fun rp => (o, rp)) := by
  have htake1 : (hst ++ ':' :: (o ++ '/' :: tail)).takeWhile (fun c => !(c == ':')) = hst := by
    rw [takeWhile_append_all _ _ _ (fun c hc => by simp [hhc c hc])]
    simp [List.takeWhile_cons]
  have hdrop1 : (hst ++ ':' :: (o ++ '/' :: tail)).dropWhile (fun c => !(c == ':')) =
      ':' :: (o ++ '/' :: tail) := by
    rw [dropWhile_append_all _ _ _ (fun c hc => by simp [hhc c hc])]
    simp [List.dropWhile_cons]
  have htake2 : (o ++ '/' :: tail).takeWhile (fun c => !(c == '/')) = o := by
    rw [takeWhile_append_all _ _ _ (fun c hc => by simp [hos c hc])]
    simp [List.takeWhile_cons]
  have hdrop2 : (o ++ '/' :: tail).dropWhile (fun c => !(c == '/')) = '/' :: tail := by
    rw [dropWhile_append_all _ _ _ (fun c hc => by simp [hos c hc])]
    simp [List.dropWhile_cons]
  have hhe : hst.isEmpty = false := by
    cases hst with
    | nil => exact absurd rfl hh
    | cons c t => rfl
  have hoe : o.isEmpty = false := by
    cases o with
    | nil => exact absurd rfl ho
    | cons c t => rfl
  simp only [trySsh2At]
  rw [htake1, hdrop1]
  simp only [hhe, Bool.false_eq_true, if_false]
  rw [htake2, hdrop2]
  simp only [hoe, Bool.false_eq_true, if_false]

/-- Characters of the `.git` literal are not `/`. -/
lemma litDotGit_ne_slash {c : Char} (h : c ∈ litDotGit) : (c == '/') = false := by
  simp [litDotGit] at h
  rcases h with rfl | rfl | rfl | rfl <;> rfl

/-- Characters of the `.git` literal are not newlines. -/
lemma litDotGit_ne_nl {c : Char} (h : c ∈ litDotGit) : (c == '\n') = false := by
  simp [litDotGit] at h
  rcases h with rfl | rfl | rfl | rfl <;> rfl

/-- Characters of the `.git` literal are not whitespace. -/
lemma litDotGit_not_space {c : Char} (h : c ∈ litDotGit) : isJsSpace c = false := by
  simp [litDotGit] at h
  rcases h with rfl | rfl | rfl | rfl <;> rfl

/-- Characters of the rendered repo tail (repo name plus optional `.git`). -/
lemma mem_tailGit {c : Char} {gitSuf : Bool} {r : List Char}
    (hc : c ∈ r ++ (if gitSuf then litDotGit else [])) : c ∈ r ∨ c ∈ litDotGit := by
  rcases List.mem_append.mp hc with h | h
  · exact Or.inl h
  · rcases gitSuf with _ | _
    · exact absurd h (List.not_mem_nil c)
    · exact Or.inr h

/-- The rendered repo tail is nonempty. -/
lemma tailGit_ne_nil {gitSuf : Bool} {r : List Char} (hr : r ≠ []) :
    r ++ (if gitSuf then litDotGit else []) ≠ [] := by
  intro h
  exact hr (List.append_eq_nil.mp h).1

/-- The standard SSH render written as a slash split. -/
lemma renderSsh_eq (gitSuf : Bool) (hst o r : List Char) :
    renderSsh gitSuf hst o r =
      ('g' :: 'i' :: 't' :: '@' :: (hst ++ ':' :: o)) ++ '/' ::
        (r ++ (if gitSuf then litDotGit else [])) := by
  simp [renderSsh, List.append_assoc]

/-- The HTTPS regex never matches the SSH render: it has a single `/`. -/
lemma matchHttps_renderSsh (gitSuf : Bool) (hst o r : List Char)
    (hh : ∀ c ∈ hst, hostChar c = true) (ho : ∀ c ∈ o, wordChar c = true)
    (hr : ∀ c ∈ r, wordChar c = true) :
    matchHttps (renderSsh gitSuf hst o r) = none := by
  rw [renderSsh_eq]
  have hpre : ∀ c ∈ ('g' :: 'i' :: 't' :: '@' :: (hst ++ ':' :: o)), (c == '/') = false := by
    intro c hc
    simp only [List.mem_cons, List.mem_append] at hc
    rcases hc with rfl | rfl | rfl | rfl | h | rfl | h
    · rfl
    · rfl
    · rfl
    · rfl
    · exact hostChar_ne_slash (hh c h)
    · rfl
    · exact wordChar_ne_slash (ho c h)
  have htail : ∀ c ∈ r ++ (if gitSuf then litDotGit else []), (c == '/') = false := by
    intro c hc
    rcases mem_tailGit hc with h | h
    · exact wordChar_ne_slash (hr c h)
    · exact litDotGit_ne_slash h
  have hsplit : splitSlash (('g' :: 'i' :: 't' :: '@' :: (hst ++ ':' :: o)) ++ '/' ::
      (r ++ (if gitSuf then litDotGit else []))) =
      [('g' :: 'i' :: 't' :: '@' :: (hst ++ ':' :: o)),
       r ++ (if gitSuf then litDotGit else [])] := by
    rw [splitSlash_append _ _ hpre, splitSlash_single _ htail]
  unfold matchHttps
  rw [hsplit]
  rfl

/-- The SSH render contains no whitespace when its components are from the
modelled alphabets. -/
lemma renderSsh_no_space (gitSuf : Bool) (hst o r : List Char)
    (hh : ∀ c ∈ hst, hostChar c = true) (ho : ∀ c ∈ o, wordChar c = true)
    (hr : ∀ c ∈ r, wordChar c = true) :
    ∀ c ∈ renderSsh gitSuf hst o r, isJsSpace c = false := by
  intro c hc
  unfold renderSsh at hc
  rcases List.mem_cons.mp hc with rfl | hc
  · rfl
  rcases List.mem_cons.mp hc with rfl | hc
  · rfl
  rcases List.mem_cons.mp hc with rfl | hc
  · rfl
  rcases List.mem_cons.mp hc with rfl | hc
  · rfl
  rcases List.mem_append.mp hc with h | hc
  · exact hostChar_not_space (hh c h)
  rcases List.mem_cons.mp hc with rfl | hc
  · rfl
  rcases List.mem_append.mp hc with h | hc
  · exact wordChar_not_space (ho c h)
  rcases List.mem_cons.mp hc with rfl | hc
  · rfl
  rcases mem_tailGit hc with h | h
  · exact wordChar_not_space (hr c h)
  · exact litDotGit_not_space h

/-- Length bound for the SSH render. -/
lemma renderSsh_length (gitSuf : Bool) (hst o r : List Char) :
    (renderSsh gitSuf hst o r).length ≤ hst.length + o.length + r.length + 10 := by
  unfold renderSsh
  have hsuf : (if gitSuf then litDotGit else []).length ≤ 4 := by
    cases gitSuf <;> simp [litDotGit]
  simp only [List.length_cons, List.length_append]
  omega

/-- The SSH shapes (standard host and hyphenated alias host alike) parse to
the owner/repo pair, with or without the `.git` suffix. -/
lemma parse_renderSsh (gitSuf : Bool) (hst o r : List Char)
    (hh0 : hst ≠ []) (hh : ∀ c ∈ hst, hostChar c = true)
    (ho0 : o ≠ []) (ho : ∀ c ∈ o, wordChar c = true)
    (hr0 : r ≠ []) (hr : ∀ c ∈ r, wordChar c = true)
    (hlen : hst.length + o.length + r.length ≤ 1950) :
    parseGitHubUrl (renderSsh gitSuf hst o r) = .ok (o, r) := by
  have hne : (renderSsh gitSuf hst o r).isEmpty = false := by
    unfold renderSsh; rfl
  have hprep : prepUrl (renderSsh gitSuf hst o r) = renderSsh gitSuf hst o r := by
    unfold prepUrl
    rw [jsTrim_eq_self _ (renderSsh_no_space gitSuf hst o r hh ho hr)]
    exact truncate_of_le _ _ _
      (le_trans (renderSsh_length gitSuf hst o r) (by omega))
  have hstrip : stripSshGit (r ++ (if gitSuf then litDotGit else [])) = some r := by
    have hdot : ∀ c ∈ r, (c == '.') = false := fun c hc => wordChar_ne_dot (hr c hc)
    have hslash : ∀ c ∈ r, (c == '/') = false := fun c hc => wordChar_ne_slash (hr c hc)
    cases gitSuf
    · simp only [Bool.false_eq_true, if_false, List.append_nil]
      exact stripSshGit_plain r hr0 hdot hslash
    · simp only [if_true]
      exact stripSshGit_append r hr0 hdot hslash
  have hssh : trySsh2At (renderSsh gitSuf hst o r) = some (o, r) := by
    unfold renderSsh
    rw [trySsh2_shape hst o _ hh0 (fun c hc => hostChar_ne_colon (hh c hc)) ho0
      (fun c hc => wordChar_ne_slash (ho c hc))]
    rw [hstrip]
    rfl
  have hres : resolveOwnerRepo (renderSsh gitSuf hst o r) = some (o, r) := by
    unfold resolveOwnerRepo
    have hnone := matchHttps_renderSsh gitSuf hst o r hh ho hr
    have hhttps : (if includesStr litGithub (renderSsh gitSuf hst o r) &&
        includesStr litHttp (renderSsh gitSuf hst o r) then
        matchHttps (renderSsh gitSuf hst o r) else none) = none := by
      split
      · exact hnone
      · rfl
    rw [hhttps]
    have hfind : findMatch trySsh2At (renderSsh gitSuf hst o r) = some (o, r) := by
      conv_lhs => rw [show renderSsh gitSuf hst o r =
        'g' :: 'i' :: 't' :: '@' :: (hst ++ ':' :: (o ++ '/' ::
          (r ++ (if gitSuf then litDotGit else [])))) from rfl]
      rw [findMatch]
      rw [show ('g' :: 'i' :: 't' :: '@' :: (hst ++ ':' :: (o ++ '/' ::
          (r ++ (if gitSuf then litDotGit else []))))) =
        renderSsh gitSuf hst o r from rfl]
      rw [hssh]
    rw [hfind]
  unfold parseGitHubUrl
  rw [hne]
  simp only [Bool.false_eq_true, if_false]
  rw [hprep, hres]
  have hoe : o.isEmpty = false := by
    cases o with
    | nil => exact absurd rfl ho0
    | cons c t => rfl
  have hre : r.isEmpty = false := by
    cases r with
    | nil => exact absurd rfl hr0
    | cons c t => rfl
  simp only [sanitize_eq_self_of_word o ho, sanitize_eq_self_of_word r hr, hoe, hre,
    Bool.or_self, Bool.false_eq_true, if_false]

/-- Characters of the `www.` literal: not slashes, not whitespace. -/
lemma litWwwDot_ne_slash {c : Char} (h : c ∈ litWwwDot) : (c == '/') = false := by
  simp [litWwwDot] at h
  rcases h with rfl | rfl | rfl | rfl <;> rfl

/-- Characters of the `www.` literal are not whitespace. -/
lemma litWwwDot_not_space {c : Char} (h : c ∈ litWwwDot) : isJsSpace c = false := by
  simp [litWwwDot] at h
  rcases h with rfl | rfl | rfl | rfl <;> rfl

/-- Membership in the optional userinfo block. -/
lemma mem_userPart {c : Char} {usr : Bool} {u : List Char}
    (hc : c ∈ (if usr then u ++ ['@'] else [])) : c ∈ u ∨ c = '@' := by
  rcases usr with _ | _
  · exact absurd hc (List.not_mem_nil c)
  · rcases List.mem_append.mp hc with h | h
    · exact Or.inl h
    · exact Or.inr (by simpa using h)

/-- Membership in the optional `www.` block. -/
lemma mem_wwwPart {c : Char} {www : Bool}
    (hc : c ∈ (if www then litWwwDot else [])) : c ∈ litWwwDot := by
  rcases www with _ | _
  · exact absurd hc (List.not_mem_nil c)
  · exact hc

/-- The middle block of the HTTPS render is slash-free. -/
lemma midBlock_ne_slash (usr www : Bool) (u hst : List Char)
    (hu : ∀ c ∈ u, userChar c = true) (hh : ∀ c ∈ hst, hostChar c = true) :
    ∀ c ∈ (if usr then u ++ ['@'] else []) ++ (if www then litWwwDot else []) ++ hst,
      (c == '/') = false := by
  intro c hc
  rcases List.mem_append.mp hc with hc2 | h
  · rcases List.mem_append.mp hc2 with h | h
    · rcases mem_userPart h with h2 | rfl
      · exact userChar_ne_slash (hu c h2)
      · rfl
    · exact litWwwDot_ne_slash (mem_wwwPart h)
  · exact hostChar_ne_slash (hh c h)

/-- The HTTPS render contains no whitespace. -/
lemma renderHttps_no_space (secure usr www gitSuf : Bool) (u hst o r : List Char)
    (hu : ∀ c ∈ u, userChar c = true) (hh : ∀ c ∈ hst, hostChar c = true)
    (ho : ∀ c ∈ o, wordChar c = true) (hr : ∀ c ∈ r, wordChar c = true) :
    ∀ c ∈ renderHttps secure usr www gitSuf u hst o r, isJsSpace c = false := by
  intro c hc
  unfold renderHttps at hc
  rcases List.mem_append.mp hc with h | hc
  · have : c ∈ litHttpsScheme ∨ c ∈ litHttpScheme := by
      rcases secure with _ | _
      · exact Or.inr h
      · exact Or.inl h
    rcases this with h2 | h2
    · simp [litHttpsScheme] at h2
      rcases h2 with rfl | rfl | rfl | rfl | rfl | rfl <;> rfl
    · simp [litHttpScheme] at h2
      rcases h2 with rfl | rfl | rfl | rfl | rfl <;> rfl
  rcases List.mem_cons.mp hc with rfl | hc
  · rfl
  rcases List.mem_cons.mp hc with rfl | hc
  · rfl
  rcases List.mem_append.mp hc with hc2 | hc
  · rcases List.mem_append.mp hc2 with hc3 | h
    · rcases List.mem_append.mp hc3 with h | h
      · rcases mem_userPart h with h2 | rfl
        · exact userChar_not_space (hu c h2)
        · rfl
      · exact litWwwDot_not_space (mem_wwwPart h)
    · exact hostChar_not_space (hh c h)
  rcases List.mem_cons.mp hc with rfl | hc
  · rfl
  rcases List.mem_append.mp hc with h | hc
  · exact wordChar_not_space (ho c h)
  rcases List.mem_cons.mp hc with rfl | hc
  · rfl
  rcases mem_tailGit hc with h | h
  · exact wordChar_not_space (hr c h)
  · exact litDotGit_not_space h

/-- Length bound for the HTTPS render. -/
lemma renderHttps_length (secure usr www gitSuf : Bool) (u hst o r : List Char) :
    (renderHttps secure usr www gitSuf u hst o r).length ≤
      u.length + hst.length + o.length + r.length + 20 := by
  unfold renderHttps
  have h1 : (if secure then litHttpsScheme else litHttpScheme).length ≤ 6 := by
    cases secure <;> simp [litHttpsScheme, litHttpScheme]
  have h2 : (if usr then u ++ ['@'] else []).length ≤ u.length + 1 := by
    cases usr <;> simp
  have h3 : (if www then litWwwDot else []).length ≤ 4 := by
    cases www <;> simp [litWwwDot]
  have h4 : (if gitSuf then litDotGit else []).length ≤ 4 := by
    cases gitSuf <;> simp [litDotGit]
  simp only [List.length_append, List.length_cons]
  omega

/-- The HTTPS shapes parse to the owner/repo pair provided the host contains
the substring "github" (the scheme supplies the substring "http" required by
the guard). -/
lemma parse_renderHttps (secure usr www gitSuf : Bool) (u hst o r : List Char)
    (hu : ∀ c ∈ u, userChar c = true)
    (hh0 : hst ≠ []) (hh : ∀ c ∈ hst, hostChar c = true)
    (ho0 : o ≠ []) (ho : ∀ c ∈ o, wordChar c = true)
    (hr0 : r ≠ []) (hr : ∀ c ∈ r, wordChar c = true)
    (hgh : includesStr litGithub hst = true)
    (hlen : u.length + hst.length + o.length + r.length ≤ 1950) :
    parseGitHubUrl (renderHttps secure usr www gitSuf u hst o r) = .ok (o, r) := by
  have hne : (renderHttps secure usr www gitSuf u hst o r).isEmpty = false := by
    unfold renderHttps
    cases secure <;> rfl
  have hprep : prepUrl (renderHttps secure usr www gitSuf u hst o r) =
      renderHttps secure usr www gitSuf u hst o r := by
    unfold prepUrl
    rw [jsTrim_eq_self _ (renderHttps_no_space secure usr www gitSuf u hst o r hu hh ho hr)]
    exact truncate_of_le _ _ _
      (le_trans (renderHttps_length secure usr www gitSuf u hst o r) (by omega))
  have hp1slash : ∀ c ∈ (if secure then litHttpsScheme else litHttpScheme),
      (c == '/') = false := by
    cases secure <;> decide
  obtain ⟨c0, hc0⟩ : ∃ c0, hst.getLast? = some c0 := by
    cases hst with
    | nil => exact absurd rfl hh0
    | cons c t => exact ⟨_, rfl⟩
  have hc0mem : c0 ∈ hst := List.mem_of_mem_getLast? hc0
  have hmidlast : ((if usr then u ++ ['@'] else []) ++ (if www then litWwwDot else []) ++
      hst).getLast? = some c0 := by
    rw [List.getLast?_append_of_ne_nil _ hh0]
    exact hc0
  have hmatch : matchHttps (renderHttps secure usr www gitSuf u hst o r) =
      some (o, stripGitCI (r ++ (if gitSuf then litDotGit else []))) := by
    unfold renderHttps
    exact matchHttps_shape _ _ _ _ hp1slash
      (midBlock_ne_slash usr www u hst hu hh) c0 hmidlast
      (hostChar_ne_colon (hh c0 hc0mem)) (hostChar_ne_nl (hh c0 hc0mem))
      ho0 (fun c hc => wordChar_ne_nl (ho c hc)) (fun c hc => wordChar_ne_slash (ho c hc))
      (tailGit_ne_nil hr0)
      (fun c hc => by
        rcases mem_tailGit hc with h | h
        · exact wordChar_ne_nl (hr c h)
        · exact litDotGit_ne_nl h)
      (fun c hc => by
        rcases mem_tailGit hc with h | h
        · exact wordChar_ne_slash (hr c h)
        · exact litDotGit_ne_slash h)
  have hstrip : stripGitCI (r ++ (if gitSuf then litDotGit else [])) = r := by
    cases gitSuf
    · simp only [Bool.false_eq_true, if_false, List.append_nil]
      exact stripGitCI_no_dot r (fun c hc => wordChar_ne_dot (hr c hc))
    · simp only [if_true]
      exact stripGitCI_append r hr0
  have hurl_eq : renderHttps secure usr www gitSuf u hst o r =
      ((if secure then litHttpsScheme else litHttpScheme) ++ '/' :: '/' ::
        ((if usr then u ++ ['@'] else []) ++ (if www then litWwwDot else []))) ++
      (hst ++ '/' :: (o ++ '/' :: (r ++ (if gitSuf then litDotGit else [])))) := by
    simp [renderHttps, List.append_assoc]
  have hg1 : includesStr litGithub (renderHttps secure usr www gitSuf u hst o r) = true := by
    rw [hurl_eq]
    exact includesStr_append_right _ _ _ (includesStr_append_left _ _ _ hgh)
  have hg2 : includesStr litHttp (renderHttps secure usr www gitSuf u hst o r) = true := by
    apply includesStr_of_isPrefixOf
    unfold renderHttps
    cases secure
    · simp [litHttp, litHttpScheme, List.isPrefixOf, List.cons_append]
    · simp [litHttp, litHttpsScheme, List.isPrefixOf, List.cons_append]
  have hres : resolveOwnerRepo (renderHttps secure usr www gitSuf u hst o r) =
      some (o, r) := by
    unfold resolveOwnerRepo
    simp only [hg1, hg2, Bool.and_self, if_true]
    rw [hmatch, hstrip]
  unfold parseGitHubUrl
  rw [hne]
  simp only [Bool.false_eq_true, if_false]
  rw [hprep, hres]
  have hoe : o.isEmpty = false := by
    cases o with
    | nil => exact absurd rfl ho0
    | cons c t => rfl
  have hre : r.isEmpty = false := by
    cases r with
    | nil => exact absurd rfl hr0
    | cons c t => rfl
  simp only [sanitize_eq_self_of_word o ho, sanitize_eq_self_of_word r hr, hoe, hre,
    Bool.or_self, Bool.false_eq_true, if_false]

/-- C7: for every input string, `sanitizeUrlComponent` removes every `.` `/`
`\` character and every character of the unsafe punctuation set, collapses
internal whitespace runs to single spaces (all remaining whitespace is a
single space and no two are adjacent), and never raises (it is a total
function); sanitizing "../../etc/passwd" yields exactly "etcpasswd"; and when
owner or repo is empty after sanitization, `parseGitHubUrl` fails with the
empty-after-sanitization validation error rather than silently substituting a
value. -/
theorem C7_sanitizer_contract :
    (∀ s, ∀ c ∈ sanitizeUrlComponent s, isDotSlashChar c = false ∧ isDangerChar c = false)
    ∧ (∀ s, allWsSingle (sanitizeUrlComponent s) ∧ noAdjSpace (sanitizeUrlComponent s))
    ∧ sanitizeUrlComponent (("../../etc/passwd").toList) = ("etcpasswd").toList
    ∧ (∀ remoteUrl ow rp, remoteUrl.isEmpty = false →
        resolveOwnerRepo (prepUrl remoteUrl) = some (ow, rp) →
        ((sanitizeUrlComponent ow).isEmpty || (sanitizeUrlComponent rp).isEmpty) = true →
        parseGitHubUrl remoteUrl = .error .emptyAfterSanitize) := by
  refine ⟨sanitize_mem_clean, sanitize_collapsed, by decide, ?_⟩
  intro remoteUrl ow rp h1 h2 h3
  unfold parseGitHubUrl
  rw [h1]
  simp only [Bool.false_eq_true, if_false]
  rw [h2]
  simp only [h3, if_true]

/-- C7 witness: a URL whose owner sanitizes to the empty string is rejected
with the validation error, and the sanitizer example evaluates as claimed. -/
theorem C7_sanitizer_contract_witness :
    parseGitHubUrl (("https://github.com/!!!/repo").toList) =
      .error .emptyAfterSanitize :=
  C7_sanitizer_contract.2.2.2 (("https://github.com/!!!/repo").toList)
    (("!!!").toList) (("repo").toList) (by decide) (by decide) (by decide)

/-- C8 counterexample: the sanitizer is not idempotent as claimed: on ". a"
the trim runs first, then the dot removal exposes a leading space, so the
first pass returns " a" while the second pass trims it to "a". -/
theorem C8_sanitizer_idem_cex :
    sanitizeUrlComponent (sanitizeUrlComponent ((". a").toList)) ≠
      sanitizeUrlComponent ((". a").toList) := by decide

/-- C8 (amended): re-sanitizing is the identity on every input whose
sanitized form is trim-stable (the character-removal passes exposed no new
leading or trailing whitespace) — in particular idempotence can only fail by
the second pass trimming a boundary space — and every string of safe word
characters is a fixed point of the sanitizer. -/
theorem C8_sanitizer_idem_amended :
    (∀ s, jsTrim (sanitizeUrlComponent s) = sanitizeUrlComponent s →
      sanitizeUrlComponent (sanitizeUrlComponent s) = sanitizeUrlComponent s)
    ∧ (∀ s, (∀ c ∈ s, wordChar c = true) → sanitizeUrlComponent s = s) :=
  ⟨sanitize_idem_of_trimmed, sanitize_eq_self_of_word⟩

/-- C8 witness: "owner" is trim-stable after sanitization, hence a fixed
point, and re-sanitizing it changes nothing. -/
theorem C8_sanitizer_idem_amended_witness :
    sanitizeUrlComponent (sanitizeUrlComponent (("owner").toList)) =
      sanitizeUrlComponent (("owner").toList)
    ∧ sanitizeUrlComponent (("owner").toList) = ("owner").toList :=
  ⟨C8_sanitizer_idem_amended.1 (("owner").toList) (by decide),
   C8_sanitizer_idem_amended.2 (("owner").toList) (by decide)⟩

/-- C6 counterexample: the claimed scheme-less HTTPS shape
`host/owner/repo` is rejected: "github.com/owner/repo" contains no "http"
substring, so the HTTPS branch is never attempted and no SSH pattern applies;
the call throws the cannot-parse error instead of returning
owner/repo. -/
theorem C6_parse_shapes_cex :
    parseGitHubUrl (("github.com/owner/repo").toList) = .error .unparseable := by
  decide

/-- C6 (amended): `parseGitHubUrl` extracts the owner/repo pair from the
supported shapes, with the proviso forced by the branch guard
`remoteUrl.includes('github') && remoteUrl.includes('http')`: the HTTPS shape
`scheme://(user@)?(www.)?host/owner/repo(.git)?` requires an explicit http or
https scheme and a host containing the substring "github" (enterprise hosts
included); the SSH shapes `git@host:owner/repo(.git)?`, including custom
hyphenated alias hosts, parse for any host.  A trailing `.git` suffix is
tolerated in all shapes, first match wins in the fixed order HTTPS, standard
SSH, custom SSH. -/
theorem C6_parse_shapes_amended (secure usr www gitSuf : Bool) (u hst o r : List Char)
    (hu : ∀ c ∈ u, userChar c = true)
    (hh0 : hst ≠ []) (hh : ∀ c ∈ hst, hostChar c = true)
    (ho0 : o ≠ []) (ho : ∀ c ∈ o, wordChar c = true)
    (hr0 : r ≠ []) (hr : ∀ c ∈ r, wordChar c = true)
    (hlen : u.length + hst.length + o.length + r.length ≤ 1950) :
    (includesStr litGithub hst = true →
      parseGitHubUrl (renderHttps secure usr www gitSuf u hst o r) = .ok (o, r))
    ∧ parseGitHubUrl (renderSsh gitSuf hst o r) = .ok (o, r) :=
  ⟨fun hgh =>
    parse_renderHttps secure usr www gitSuf u hst o r hu hh0 hh ho0 ho hr0 hr hgh hlen,
   parse_renderSsh gitSuf hst o r hh0 hh ho0 ho hr0 hr (by omega)⟩

/-- C6 witness: the two reference examples of the specification. -/
theorem C6_parse_shapes_amended_witness :
    parseGitHubUrl (("https://github.com/owner/repo.git").toList) =
      .ok ((("owner").toList), (("repo").toList))
    ∧ parseGitHubUrl (("git@github.com-work:acme/widgets.git").toList) =
      .ok ((("acme").toList), (("widgets").toList)) := by
  constructor
  · exact (C6_parse_shapes_amended true false false true (("x").toList)
      (("github.com").toList) (("owner").toList) (("repo").toList)
      (by decide) (by decide) (by decide) (by decide) (by decide) (by decide)
      (by decide) (by decide)).1 (by decide)
  · exact (C6_parse_shapes_amended true false false true (("x").toList)
      (("github.com-work").toList) (("acme").toList) (("widgets").toList)
      (by decide) (by decide) (by decide) (by decide) (by decide) (by decide)
      (by decide) (by decide)).2

/-- C9: when credential acquisition does not settle within the 30000 ms bound,
`_initialize` fails with the distinct authentication-timed-out error (not a
generic failure: it differs from the authentication-required error and from
every propagated API error), and the session moves to the `failed` state with
that error retained for inspection. -/
theorem C9_auth_timeout (st : GitHubState) (env : AuthEnv)
    (repoInfo : Option (List Char × List Char)) (h : 30000 < env.time) :
    (runInitSequence st env repoInfo).1 = .error .authTimedOut
    ∧ (runInitSequence st env repoInfo).2.initializationStatus = .failed
    ∧ (runInitSequence st env repoInfo).2.initializationError = some .authTimedOut
    ∧ GHError.authTimedOut ≠ GHError.authRequired
    ∧ (∀ m s, GHError.authTimedOut ≠ GHError.api m s) := by
  have hr : racedAuthResult env = .error litAuthTimedOutMsg := by
    unfold racedAuthResult
    rw [if_pos h]
  have hinc : includesStr litTimedOut litAuthTimedOutMsg = true := by decide
  refine ⟨?_, ?_, ?_, by decide, fun m s h2 => by cases h2⟩ <;>
    · unfold runInitSequence
      rw [hr]
      simp [hinc]

/-- C9 witness: an authentication outcome settling at 30001 ms times out. -/
theorem C9_auth_timeout_witness :
    (runInitSequence stFresh
      { result := .ok (some (("tok").toList)), time := 30001 } none).1 =
      .error .authTimedOut ∧
    (runInitSequence stFresh
      { result := .ok (some (("tok").toList)), time := 30001 }
      none).2.initializationStatus = .failed :=
  ⟨(C9_auth_timeout stFresh _ none (by decide)).1,
   (C9_auth_timeout stFresh _ none (by decide)).2.1⟩

/-- C2: a call to initialize made when the status is already `initialized`
(and no promise is in flight) returns success immediately, starts no
authentication/resolution sequence (zero handshakes), and leaves the whole
state — cached client handle, owner, repo — unchanged. -/
theorem C2_initCall_idempotent (st : GitHubState) (env : AuthEnv)
    (repoInfo : Option (List Char × List Char)) (inflight : Except GHError Bool)
    (h1 : st.initializationStatus = .initialized)
    (h2 : st.initializationPromiseActive = false) :
    runInitCall st env repoInfo inflight = (.ok true, st, 0) := by
  unfold runInitCall
  rw [h2, h1]
  simp

/-- C2 witness: re-initializing the ready state is a no-op success. -/
theorem C2_initCall_idempotent_witness :
    runInitCall stReady { result := .ok none, time := 0 } none (.ok false) =
      (.ok true, stReady, 0) :=
  C2_initCall_idempotent stReady _ none (.ok false) rfl rfl

/-- C1: two initialize calls issued back-to-back before either resolves are
coalesced: the first caller starts the single authentication/resolution
sequence, the second joins the in-flight promise, exactly one handshake is
started, and both callers observe the identical outcome — that of the single
in-flight `_initialize` execution, whether success or failure. -/
theorem C1_initCalls_coalesced (st : GitHubState) (env : AuthEnv)
    (repoInfo : Option (List Char × List Char)) (prev : Except GHError Bool)
    (hP : st.initializationPromiseActive = false)
    (hS : st.initializationStatus ≠ .initialized) :
    (twoConcurrentInitCalls st env repoInfo prev).1 =
      (twoConcurrentInitCalls st env repoInfo prev).2.1
    ∧ (twoConcurrentInitCalls st env repoInfo prev).2.2.2 = 1
    ∧ (twoConcurrentInitCalls st env repoInfo prev).1 =
      (runInitSequence (initCallSyncStep st).2 env repoInfo).1 := by
  have ha : initCallSyncStep st =
      (.startNew,
       { st with initializationStatus := .inProgress,
                 initializationPromiseActive := true }) := by
    unfold initCallSyncStep
    rw [hP]
    simp only [Bool.false_eq_true, if_false, if_neg hS]
  have hb : initCallSyncStep
      { st with initializationStatus := .inProgress,
                initializationPromiseActive := true } =
      (.joinExisting,
       { st with initializationStatus := .inProgress,
                 initializationPromiseActive := true }) := by
    unfold initCallSyncStep
    simp
  refine ⟨?_, ?_, ?_⟩ <;>
    simp [twoConcurrentInitCalls, ha, hb]

/-- C1 witness: from the fresh state, with authentication succeeding and the
repository resolving, both concurrent callers get the same result and one
handshake runs. -/
theorem C1_initCalls_coalesced_witness :
    (twoConcurrentInitCalls stFresh
      { result := .ok (some (("tok").toList)), time := 0 }
      (some ((("o1").toList), (("r1").toList))) (.ok false)).1 =
    (twoConcurrentInitCalls stFresh
      { result := .ok (some (("tok").toList)), time := 0 }
      (some ((("o1").toList), (("r1").toList))) (.ok false)).2.1
    ∧ (twoConcurrentInitCalls stFresh
      { result := .ok (some (("tok").toList)), time := 0 }
      (some ((("o1").toList), (("r1").toList))) (.ok false)).2.2.2 = 1 :=
  ⟨(C1_initCalls_coalesced stFresh _ _ _ rfl (by decide)).1,
   (C1_initCalls_coalesced stFresh _ _ _ rfl (by decide)).2.1⟩

/-- C5 (amended): every request wrapper fails fast with the not-initialized
error exactly when the Octokit client handle is unset — `checkInitialized`
tests `this.octokit`, not the lifecycle status, so `NotStarted` (and any
state reached before client construction) fails fast, but a `Failed` state
reached after client construction does not. -/
theorem C5_not_initialized_amended (st : GitHubState) (h : st.octokit = false)
    (title desc comment : List Char) (n : Int) (f : IssueFilter)
    (responses : Nat → ApiOutcome) :
    (createIssue st title desc responses).1 = .error .notInitialized
    ∧ editIssue st n title desc responses = .error .notInitialized
    ∧ addCommentToIssue st n comment responses = .error .notInitialized
    ∧ searchSimilarIssues st title responses = .error .notInitialized
    ∧ getIssueDetails st n responses = .error .notInitialized
    ∧ getIssueComments st n responses = .error .notInitialized
    ∧ closeIssue st n responses = .error .notInitialized
    ∧ reopenIssue st n responses = .error .notInitialized
    ∧ getTechDebtIssuesWithFilter st f responses = .error .notInitialized := by
  refine ⟨?_, ?_, ?_, ?_, ?_, ?_, ?_, ?_, ?_⟩ <;>
    simp [createIssue, editIssue, addCommentToIssue, searchSimilarIssues,
      getIssueDetails, getIssueComments, closeIssue, reopenIssue,
      getTechDebtIssuesWithFilter, h]

/-- C5 witness: on the fresh state every wrapper reports not-initialized. -/
theorem C5_not_initialized_amended_witness :
    (createIssue stFresh (("t").toList) [] (fun _ => .err [] none)).1 =
      .error .notInitialized
    ∧ editIssue stFresh 1 (("t").toList) [] (fun _ => .err [] none) =
      .error .notInitialized :=
  ⟨(C5_not_initialized_amended stFresh rfl (("t").toList) [] (("c").toList) 1
      { state := none, assignee := none, creator := none } (fun _ => .err [] none)).1,
   (C5_not_initialized_amended stFresh rfl (("t").toList) [] (("c").toList) 1
      { state := none, assignee := none, creator := none } (fun _ => .err [] none)).2.1⟩

/-- C5 counterexample: after `_initialize` stored the client and then failed
at repository detection, the lifecycle state is `failed` — not Initialized —
yet `createIssue` walks straight past the initialization check into title
validation instead of failing fast with the not-initialized error. -/
theorem C5_not_initialized_cex :
    stFailedAfterAuth.initializationStatus = .failed
    ∧ stFailedAfterAuth.octokit = true
    ∧ (createIssue stFailedAfterAuth [] [] (fun _ => .err [] none)).1 =
        .error .titleRequired
    ∧ (createIssue stFailedAfterAuth [] [] (fun _ => .err [] none)).1 ≠
        .error .notInitialized := by
  refine ⟨rfl, rfl, rfl, by decide⟩

/-- C3 (amended): only `createIssue` retries transient network-reset errors,
up to 3 attempts with a wait of `attempt * 1000` ms before each retry — with
two consecutive transient failures it succeeds on the third attempt after
exactly 1000 + 2000 = 3000 ms of total backoff.  Every other request wrapper
performs exactly one API request: its result depends only on the first
response. -/
theorem C3_retry_amended (st : GitHubState) (cd : List Char × List Char)
    (title desc : List Char) (responses : Nat → ApiOutcome) (d : ApiData)
    (m1 m2 : List Char) (s1 s2 : Option Nat)
    (hok : st.octokit = true) (hcd : st.cachedRepoDetails = some cd)
    (ht1 : title.isEmpty = false) (ht2 : (jsTrim title).isEmpty = false)
    (ht3 : validateLength title 1 256 = true)
    (hr1 : responses 1 = .err m1 s1) (htr1 : transientMsg m1 = true)
    (hr2 : responses 2 = .err m2 s2) (htr2 : transientMsg m2 = true)
    (hr3 : responses 3 = .ok d) :
    createIssue st title desc responses = (.ok d, 3000)
    ∧ (∀ (n : Int) (t b : List Char) (resp resp2 : Nat → ApiOutcome),
        resp 1 = resp2 1 → editIssue st n t b resp = editIssue st n t b resp2)
    ∧ (∀ (n : Int) (cm : List Char) (resp resp2 : Nat → ApiOutcome),
        resp 1 = resp2 1 →
          addCommentToIssue st n cm resp = addCommentToIssue st n cm resp2)
    ∧ (∀ (t : List Char) (resp resp2 : Nat → ApiOutcome),
        resp 1 = resp2 1 →
          searchSimilarIssues st t resp = searchSimilarIssues st t resp2)
    ∧ (∀ (n : Int) (resp resp2 : Nat → ApiOutcome),
        resp 1 = resp2 1 → getIssueDetails st n resp = getIssueDetails st n resp2)
    ∧ (∀ (n : Int) (resp resp2 : Nat → ApiOutcome),
        resp 1 = resp2 1 → getIssueComments st n resp = getIssueComments st n resp2)
    ∧ (∀ (n : Int) (resp resp2 : Nat → ApiOutcome),
        resp 1 = resp2 1 → closeIssue st n resp = closeIssue st n resp2)
    ∧ (∀ (n : Int) (resp resp2 : Nat → ApiOutcome),
        resp 1 = resp2 1 → reopenIssue st n resp = reopenIssue st n resp2)
    ∧ (∀ (f : IssueFilter) (resp resp2 : Nat → ApiOutcome),
        resp 1 = resp2 1 →
          getTechDebtIssuesWithFilter st f resp = getTechDebtIssuesWithFilter st f resp2) := by
  have hloop : createIssueLoop responses = (.ok d, 3000) := by
    unfold createIssueLoop
    rw [createIssueLoopAux, hr1]
    simp only [htr1, if_true]
    norm_num
    rw [createIssueLoopAux, hr2]
    simp only [htr2, if_true]
    norm_num
    rw [createIssueLoopAux, hr3]
  refine ⟨?_, ?_, ?_, ?_, ?_, ?_, ?_, ?_, ?_⟩
  · unfold createIssue
    rw [hok, hcd]
    simp only [Bool.not_true, Bool.false_eq_true, if_false, ht1, ht2, Bool.or_self,
      ht3, Bool.not_true, hloop]
  · intro n t b resp resp2 h
    unfold editIssue
    rw [h]
  · intro n cm resp resp2 h
    unfold addCommentToIssue
    rw [h]
  · intro t resp resp2 h
    unfold searchSimilarIssues
    rw [h]
  · intro n resp resp2 h
    unfold getIssueDetails
    rw [h]
  · intro n resp resp2 h
    unfold getIssueComments
    rw [h]
  · intro n resp resp2 h
    unfold closeIssue
    rw [h]
  · intro n resp resp2 h
    unfold reopenIssue
    rw [h]
  · intro f resp resp2 h
    unfold getTechDebtIssuesWithFilter
    rw [h]

/-- C3 witness: with transient failures on attempts 1 and 2 and success on
attempt 3, `createIssue` returns the success after 3000 ms of backoff. -/
theorem C3_retry_amended_witness :
    createIssue stReady (("t").toList) []
      (fun k => if k == 1 then .err (("read ECONNRESET").toList) none
        else if k == 2 then .err (("read ETIMEDOUT").toList) none
        else .ok { htmlUrl := (("u").toList), number := 5 }) =
      (.ok { htmlUrl := (("u").toList), number := 5 }, 3000) :=
  (C3_retry_amended stReady ((("o1").toList), (("r1").toList)) (("t").toList) []
    (fun k => if k == 1 then .err (("read ECONNRESET").toList) none
      else if k == 2 then .err (("read ETIMEDOUT").toList) none
      else .ok { htmlUrl := (("u").toList), number := 5 })
    { htmlUrl := (("u").toList), number := 5 }
    (("read ECONNRESET").toList) (("read ETIMEDOUT").toList) none none
    rfl rfl rfl rfl (by decide) rfl (by decide) rfl (by decide) rfl).1

/-- C3 counterexample: with the same transient first response under which
`createIssue` retries and succeeds, `editIssue` performs no retry and
surfaces the transient error. -/
theorem C3_retry_cex :
    editIssue stReady 1 (("t").toList) []
      (fun k => if k == 1 then .err (("read ECONNRESET").toList) none
        else .ok { htmlUrl := (("u").toList), number := 5 }) =
      .error (.api (("read ECONNRESET").toList) none)
    ∧ createIssue stReady (("t").toList) []
      (fun k => if k == 1 then .err (("read ECONNRESET").toList) none
        else .ok { htmlUrl := (("u").toList), number := 5 }) =
      (.ok { htmlUrl := (("u").toList), number := 5 }, 1000) :=
  ⟨rfl, rfl⟩

/-- C4 (amended): a 401 / bad-credentials response is never retried: in
`createIssue` a non-transient 401 error ends the request loop on the first
attempt with zero backoff wait and is mapped by the catch block to the
actionable re-authenticate error; the other wrappers (here
`addCommentToIssue`) likewise make only the single attempt but propagate the
raw 401 error unmapped — which is distinct from the re-authenticate error. -/
theorem C4_auth401_amended (st : GitHubState) (cd : List Char × List Char)
    (title desc comment : List Char) (responses : Nat → ApiOutcome)
    (m : List Char) (s : Option Nat)
    (hok : st.octokit = true) (hcd : st.cachedRepoDetails = some cd)
    (ht1 : title.isEmpty = false) (ht2 : (jsTrim title).isEmpty = false)
    (ht3 : validateLength title 1 256 = true)
    (hc1 : comment.isEmpty = false) (hc2 : (jsTrim comment).isEmpty = false)
    (hr : responses 1 = .err m s) (hnt : transientMsg m = false)
    (h401 : s = some 401 ∨ includesStr litBadCredentials m = true) :
    createIssue st title desc responses = (.error .authFailed, 0)
    ∧ addCommentToIssue st 1 comment responses = .error (.api m s)
    ∧ GHError.api m s ≠ GHError.authFailed := by
  have hosc : includesStr litOtherSideClosed m = false := by
    unfold transientMsg at hnt
    rcases hx : includesStr litOtherSideClosed m with _ | _
    · rfl
    · rw [hx] at hnt
      simp at hnt
  have h401b : ((s == some 401) || includesStr litBadCredentials m) = true := by
    rcases h401 with h | h
    · subst h
      rfl
    · rw [h]
      simp
  have hloop : createIssueLoop responses = (.error (m, s), 0) := by
    unfold createIssueLoop
    rw [createIssueLoopAux, hr]
    simp only [hnt, Bool.false_eq_true, if_false]
  refine ⟨?_, ?_, fun h2 => by cases h2⟩
  · unfold createIssue
    rw [hok, hcd]
    simp only [Bool.not_true, Bool.false_eq_true, if_false, ht1, ht2, Bool.or_self, ht3,
      hloop, hosc, is401, h401b, if_true]
  · unfold addCommentToIssue
    rw [hok, hcd, hr]
    simp only [Bool.not_true, Bool.false_eq_true, if_false, hc1, hc2, Bool.or_self]
    norm_num

/-- C4 witness: a "Bad credentials" 401 response is mapped by `createIssue`
to the re-authenticate error with no retry and no wait, while
`addCommentToIssue` propagates it raw. -/
theorem C4_auth401_amended_witness :
    createIssue stReady (("t").toList) []
      (fun _ => .err (("Bad credentials").toList) (some 401)) =
      (.error .authFailed, 0)
    ∧ addCommentToIssue stReady 1 (("hi").toList)
      (fun _ => .err (("Bad credentials").toList) (some 401)) =
      .error (.api (("Bad credentials").toList) (some 401)) :=
  ⟨(C4_auth401_amended stReady ((("o1").toList), (("r1").toList)) (("t").toList) []
      (("hi").toList) (fun _ => .err (("Bad credentials").toList) (some 401))
      (("Bad credentials").toList) (some 401)
      rfl rfl rfl rfl (by decide) rfl rfl rfl (by decide) (Or.inl rfl)).1,
   (C4_auth401_amended stReady ((("o1").toList), (("r1").toList)) (("t").toList) []
      (("hi").toList) (fun _ => .err (("Bad credentials").toList) (some 401))
      (("Bad credentials").toList) (some 401)
      rfl rfl rfl rfl (by decide) rfl rfl rfl (by decide) (Or.inl rfl)).2.1⟩

/-- C4 counterexample: `addCommentToIssue` receiving a 401 bad-credentials
response surfaces the raw API error, not an actionable re-authenticate error
distinct from a generic failure. -/
theorem C4_auth401_cex :
    addCommentToIssue stReady 1 (("hi").toList)
      (fun _ => .err (("Bad credentials").toList) (some 401)) =
      .error (.api (("Bad credentials").toList) (some 401))
    ∧ (.error (.api (("Bad credentials").toList) (some 401)) :
        Except GHError ApiData) ≠ .error .authFailed := by
  exact ⟨rfl, by decide⟩

/-- C10: in `getTechDebtIssuesWithFilter`, a filter state that is absent,
empty, or outside open/closed/all is silently replaced by "open" — no
validation error, the query proceeds — and any truthy assignee or creator
value is passed through the URL-component sanitizer before entering the
query parameters. -/
theorem C10_filter_defaults (st : GitHubState) (ow rp : List Char)
    (f : IssueFilter) (responses : Nat → ApiOutcome) (d : ApiData)
    (hok : st.octokit = true) (hcd : st.cachedRepoDetails = some (ow, rp))
    (hresp : responses 1 = .ok d)
    (hstate : f.state = none ∨ ∃ s, f.state = some s ∧
      ¬(s ≠ [] ∧ (s = litOpen ∨ s = litClosed ∨ s = litAll))) :
    ∃ params : ListParams,
      getTechDebtIssuesWithFilter st f responses = .ok (params, d)
      ∧ params.state = litOpen
      ∧ params.assignee = Option.map sanitizeUrlComponent (truthyOpt f.assignee)
      ∧ params.creator = Option.map sanitizeUrlComponent (truthyOpt f.creator)
      ∧ params.owner = ow ∧ params.repo = rp ∧ params.labels = litTechDebt := by
  have hstateval :
      (match f.state with
        | some s =>
          if !s.isEmpty && (s == litOpen || s == litClosed || s == litAll) then s
          else litOpen
        | none => litOpen) = litOpen := by
    rcases hstate with h | ⟨s, hs, hbad⟩
    · rw [h]
    · rw [hs]
      simp only []
      rw [if_neg]
      intro hcond
      have h1 := (Bool.and_eq_true_iff.mp hcond).1
      have h2 := (Bool.and_eq_true_iff.mp hcond).2
      refine hbad ⟨?_, ?_⟩
      · intro he
        rw [he] at h1
        simp at h1
      · rcases Bool.or_eq_true_iff.mp h2 with h3 | h3
        · rcases Bool.or_eq_true_iff.mp h3 with h4 | h4
          · exact Or.inl (eq_of_beq h4)
          · exact Or.inr (Or.inl (eq_of_beq h4))
        · exact Or.inr (Or.inr (eq_of_beq h3))
  unfold getTechDebtIssuesWithFilter
  rw [hok, hcd, hresp]
  simp only [Bool.not_true, Bool.false_eq_true, if_false, hstateval]
  rcases hta : truthyOpt f.assignee with _ | a <;>
    rcases htc : truthyOpt f.creator with _ | c <;>
      · refine ⟨_, rfl, ?_, ?_, ?_, ?_, ?_, ?_⟩ <;> rfl

/-- C10 witness: an unsupported state "bogus" becomes "open" and the query
still succeeds, with the assignee "a/b" sanitized to "ab". -/
theorem C10_filter_defaults_witness :
    ∃ params : ListParams,
      getTechDebtIssuesWithFilter stReady
        { state := some (("bogus").toList), assignee := some (("a/b").toList),
          creator := none }
        (fun _ => .ok { htmlUrl := (("u").toList), number := 2 }) =
        .ok (params, { htmlUrl := (("u").toList), number := 2 })
      ∧ params.state = litOpen
      ∧ params.assignee = some (("ab").toList) := by
  obtain ⟨p, h1, h2, h3, _⟩ :=
    C10_filter_defaults stReady (("o1").toList) (("r1").toList)
      { state := some (("bogus").toList), assignee := some (("a/b").toList),
        creator := none }
      (fun _ => .ok { htmlUrl := (("u").toList), number := 2 })
      { htmlUrl := (("u").toList), number := 2 }
      rfl rfl rfl (Or.inr ⟨(("bogus").toList), rfl, by decide⟩)
  refine ⟨p, h1, h2, ?_⟩
  rw [h3]
  decide
